import Mathlib

/-!
Verification of the mshtml dynamic-dispatch engine (`dlls/mshtml/dispex.c`).

This file shallowly embeds the data model and the operations of the dispatch
engine: compiled member tables (`func_info_t`, `dispex_data_t`), the dynamic
(expando) property store with prototype references, the builtin invocation
engine (`invoke_builtin_function`, `builtin_propput`), the function wrapper
objects (`function_value`, `function_apply`, `function_get_dispid`,
`function_get_name`), the reflection cache (`preprocess_dispex_data`,
`ensure_dispex_info`) and the enumeration entry point
(`DispatchEx_GetNextDispID`).  External COM collaborators (type-coercion
services, the objects a call is dispatched onto, class hooks) are modelled as
explicit function parameters; memory allocation is modelled as always
succeeding.  C out-parameters become returned values; `HRESULT` is kept as the
32-bit code so that success (`S_OK`/`S_FALSE`) and failure codes are preserved
exactly.
-/

namespace Dispex

/-- `HRESULT`, as its unsigned 32-bit code. -/
abbrev HRESULT := Nat

def S_OK : HRESULT := 0
def S_FALSE : HRESULT := 1
def E_NOTIMPL : HRESULT := 0x80004001
def E_NOINTERFACE : HRESULT := 0x80004002
def E_FAIL : HRESULT := 0x80004005
def E_UNEXPECTED : HRESULT := 0x8000FFFF
def E_ACCESSDENIED : HRESULT := 0x80070005
def E_OUTOFMEMORY : HRESULT := 0x8007000E
def E_INVALIDARG : HRESULT := 0x80070057
def DISP_E_MEMBERNOTFOUND : HRESULT := 0x80020003
def DISP_E_UNKNOWNNAME : HRESULT := 0x80020006
def DISP_E_TYPEMISMATCH : HRESULT := 0x80020005
def CTL_E_ILLEGALFUNCTIONCALL : HRESULT := 0x800A0005
/-- Modelled from the spec: mshtml-private error codes (`mshtml_private.h` is
not part of the sources; only the code values are taken from the platform SDK
convention, their exact values are irrelevant to the claims). -/
def MSHTML_E_INVALID_PROPERTY : HRESULT := 0x800A01B6
def MSHTML_E_INVALID_ACTION : HRESULT := 0x800A01BD

/-- `FAILED(hr)`: the severity bit is set. -/
def FAILED (hr : HRESULT) : Bool := 0x80000000 ≤ hr

/-- `SUCCEEDED(hr)`. -/
def SUCCEEDED (hr : HRESULT) : Bool := hr < 0x80000000

/-- Dispatch identifiers (`DISPID`), signed 32-bit in the source. -/
abbrev DISPID := Int

def DISPID_VALUE : DISPID := 0
def DISPID_UNKNOWN : DISPID := -1
def DISPID_STARTENUM : DISPID := DISPID_UNKNOWN
def DISPID_PROPERTYPUT : DISPID := -3
def DISPID_DYNPROP_0 : DISPID := 0x50000000
def DISPID_DYNPROP_MAX : DISPID := 0x5fffffff
/-- Modelled from the spec: the custom-member identifier range
(`MSHTML_DISPID_CUSTOM_MIN/MAX` live in `mshtml_private.h`, which is not part
of the sources; the spec only requires the builtin / custom / dynamic ranges
to be disjoint fixed partitions). -/
def MSHTML_DISPID_CUSTOM_MIN : DISPID := 0x60000000
def MSHTML_DISPID_CUSTOM_MAX : DISPID := 0x6fffffff

/-- `DWORD` subtraction of two `DISPID`s, as in `DWORD idx = id - base;`. -/
def dword_sub (a b : DISPID) : Nat := ((a - b) % (2 ^ 32 : Int)).toNat

def is_custom_dispid (id : DISPID) : Bool :=
  MSHTML_DISPID_CUSTOM_MIN ≤ id ∧ id ≤ MSHTML_DISPID_CUSTOM_MAX

def is_dynamic_dispid (id : DISPID) : Bool :=
  DISPID_DYNPROP_0 ≤ id ∧ id ≤ DISPID_DYNPROP_MAX

inductive dispex_prop_type_t where
  | DISPEXPROP_CUSTOM
  | DISPEXPROP_DYNAMIC
  | DISPEXPROP_BUILTIN
deriving DecidableEq, Repr

def get_dispid_type (id : DISPID) : dispex_prop_type_t :=
  if is_dynamic_dispid id then .DISPEXPROP_DYNAMIC
  else if is_custom_dispid id then .DISPEXPROP_CUSTOM
  else .DISPEXPROP_BUILTIN

/-- Compatibility modes (`compat_mode_t`, declared in `mshtml_private.h`,
which is not part of the sources; the spec's "modern threshold" is
`COMPAT_MODE_IE9`). -/
inductive compat_mode_t where
  | COMPAT_MODE_QUIRKS
  | COMPAT_MODE_IE5
  | COMPAT_MODE_IE7
  | COMPAT_MODE_IE8
  | COMPAT_MODE_IE9
  | COMPAT_MODE_IE10
  | COMPAT_MODE_IE11
deriving DecidableEq, Repr

def compat_mode_t.toNat : compat_mode_t → Nat
  | .COMPAT_MODE_QUIRKS => 0
  | .COMPAT_MODE_IE5 => 1
  | .COMPAT_MODE_IE7 => 2
  | .COMPAT_MODE_IE8 => 3
  | .COMPAT_MODE_IE9 => 4
  | .COMPAT_MODE_IE10 => 5
  | .COMPAT_MODE_IE11 => 6

/-- `a >= b` on compatibility modes (they are a C enum compared by value). -/
def compat_ge (a b : compat_mode_t) : Bool := b.toNat ≤ a.toNat

/-- Variant type tags (`VARTYPE`); `VT_BYREF` is the by-reference flag bit. -/
inductive VARTYPE where
  | VT_EMPTY
  | VT_NULL
  | VT_I2
  | VT_UI2
  | VT_I4
  | VT_UI4
  | VT_UI8
  | VT_R4
  | VT_BSTR
  | VT_DISPATCH
  | VT_UNKNOWN
  | VT_BOOL
  | VT_VARIANT
  | VT_PTR
  | VT_VOID
  | VT_ERROR
  | VT_BYREF (t : VARTYPE)
deriving DecidableEq, Repr

/-- Tagged values (`VARIANT`).  Object references (`IDispatch*`/`IUnknown*`)
are modelled as optional object identifiers (`none` is a NULL pointer); BSTRs
can be NULL as well.  `i4`/`ui4` integers are kept exact (the claims never
exercise 32-bit wraparound of stored values). -/
inductive Variant where
  | VEmpty
  | VNull
  | VI2 (n : Int)
  | VUI2 (n : Nat)
  | VI4 (n : Int)
  | VUI4 (n : Nat)
  | VUI8 (n : Nat)
  | VBstr (s : Option String)
  | VDispatch (p : Option Nat)
  | VDispatchRef (p : Option Nat)
  | VUnknown (p : Option Nat)
  | VBool (b : Bool)
  | VError (hr : HRESULT)
deriving DecidableEq, Repr

def Variant.vt : Variant → VARTYPE
  | .VEmpty => .VT_EMPTY
  | .VNull => .VT_NULL
  | .VI2 _ => .VT_I2
  | .VUI2 _ => .VT_UI2
  | .VI4 _ => .VT_I4
  | .VUI4 _ => .VT_UI4
  | .VUI8 _ => .VT_UI8
  | .VBstr _ => .VT_BSTR
  | .VDispatch _ => .VT_DISPATCH
  | .VDispatchRef _ => .VT_BYREF .VT_DISPATCH
  | .VUnknown _ => .VT_UNKNOWN
  | .VBool _ => .VT_BOOL
  | .VError _ => .VT_ERROR

/-- `V_I4` of a variant known to hold a 32-bit int. -/
def Variant.i4D : Variant → Int
  | .VI4 n => n
  | _ => 0

/-- `V_UI4` of a variant; a `DYNPROP_PROTREF` slot stores the prototype-store
index through the union overlay (`V_VT(var) == VT_EMPTY and V_UI4(var) == the
ref` in the source); the model stores it as a `VUI4` payload, which no claimed
code path ever re-reads through a different union member. -/
def Variant.ui4D : Variant → Nat
  | .VUI4 n => n
  | _ => 0

instance : Inhabited Variant := ⟨.VEmpty⟩

/-- `DISPPARAMS`: `rgvarg` in the array order the C code sees (index 0 is the
LAST positional argument of the logical call, per the OLE convention);
`cArgs`/`cNamedArgs` are the list lengths. -/
structure DISPPARAMS where
  rgvarg : List Variant
  rgdispidNamedArgs : List DISPID
deriving DecidableEq, Repr

def DISPPARAMS.cArgs (dp : DISPPARAMS) : Nat := dp.rgvarg.length
def DISPPARAMS.cNamedArgs (dp : DISPPARAMS) : Nat := dp.rgdispidNamedArgs.length

/-- Invocation flag words (`DISPATCH_*`). -/
def DISPATCH_METHOD : Nat := 1
def DISPATCH_PROPERTYGET : Nat := 2
def DISPATCH_PROPERTYPUT : Nat := 4
def DISPATCH_PROPERTYPUTREF : Nat := 8
def DISPATCH_CONSTRUCT : Nat := 0x4000

/-- The external coercion collaborators `change_type` consults: the optional
caller-supplied `IVariantChangeType` service (`none` models no caller / no
service / the service declining, per call), and the OS `VariantChangeType`
fallback. -/
structure ChangeTypeProviders where
  caller : Option (VARTYPE → Variant → Option Variant)
  os : VARTYPE → Variant → Except HRESULT Variant

/-- `change_type` (dispex.c:1477): caller service first, then the built-in
special cases (BSTR truthiness for VT_BOOL, empty/null to a NULL object
reference for VT_UNKNOWN/VT_DISPATCH), then OS `VariantChangeType`. -/
def change_type (env : ChangeTypeProviders) (src : Variant) (vt : VARTYPE) :
    Except HRESULT Variant :=
  let viaCaller : Option Variant :=
    match env.caller with
    | some svc => svc vt src
    | none => none
  match viaCaller with
  | some dst => .ok dst
  | none =>
    match vt, src with
    | .VT_BOOL, .VBstr s => .ok (.VBool (s.getD "" ≠ ""))
    | .VT_UNKNOWN, .VEmpty => .ok (.VUnknown none)
    | .VT_UNKNOWN, .VNull => .ok (.VUnknown none)
    | .VT_DISPATCH, .VEmpty => .ok (.VDispatch none)
    | .VT_DISPATCH, .VNull => .ok (.VDispatch none)
    | _, _ => env.os vt src

/-- `variant_copy` (dispex.c:736): NULL BSTRs are copied as NULL; otherwise
`VariantCopy` deep-copies (modelled value-identically, allocation always
succeeding). -/
def variant_copy (src : Variant) : Except HRESULT Variant :=
  match src with
  | .VBstr none => .ok (.VBstr none)
  | v => .ok v

/-- Per-argument extra data (`func_arg_info_t`): the narrowing IID for
object-typed parameters (`none` models `IID_NULL`) and the declared default
value. -/
structure func_arg_info_t where
  iid : Option Nat
  default_value : Variant
deriving DecidableEq, Repr

instance : Inhabited func_arg_info_t := ⟨⟨none, .VEmpty⟩⟩

/-- Compiled member metadata (`func_info_t`).  Vtbl offsets are `SHORT`s in
the source with 0 meaning "absent"; `func_disp_idx` is `-1` for a plain
property, `-2` for a hidden accessor and `>= 0` (the function-object cache
slot) for a method; `hook` records whether a per-member hook is installed (its
behavior is an external collaborator, supplied separately where modelled). -/
structure func_info_t where
  id : DISPID
  name : String
  tid : Nat
  hook : Bool
  call_vtbl_off : Nat
  put_vtbl_off : Nat
  get_vtbl_off : Nat
  func_disp_idx : Int
  argc : Nat
  default_value_cnt : Nat
  prop_vt : VARTYPE
  arg_types : List VARTYPE
  arg_info : List func_arg_info_t
deriving DecidableEq, Repr

instance : Inhabited func_info_t :=
  ⟨⟨0, "", 0, false, 0, 0, 0, -1, 0, 0, .VT_EMPTY, [], []⟩⟩

/-- The supported native argument types (`BUILTIN_ARG_TYPES_SWITCH`). -/
def is_arg_type_supported (vt : VARTYPE) : Bool :=
  match vt with
  | .VT_I2 | .VT_UI2 | .VT_I4 | .VT_UI4 | .VT_R4 | .VT_BSTR
  | .VT_DISPATCH | .VT_BOOL => true
  | _ => false

/-- The types handled by the property get/put switches
(`BUILTIN_TYPES_SWITCH`). -/
def is_builtin_type_supported (vt : VARTYPE) : Bool :=
  is_arg_type_supported vt ||
    match vt with
    | .VT_VARIANT | .VT_PTR | .VT_UNKNOWN | .VT_UI8 => true
    | _ => false

/-- `builtin_propput` (dispex.c:1550), with the target object's put vtbl slot
modelled by `putter` (an external member implementation) and the object's
compatibility mode passed explicitly (`dispex_compat_mode(This)`). -/
def builtin_propput (ct : ChangeTypeProviders) (putter : Variant → HRESULT)
    (compat : compat_mode_t) (func : func_info_t) (dp : DISPPARAMS) : HRESULT :=
  if dp.cArgs ≠ 1 ∨
      (dp.cNamedArgs = 1 ∧ dp.rgdispidNamedArgs.getD 0 0 ≠ DISPID_PROPERTYPUT) ∨
      dp.cNamedArgs > 1 then
    E_INVALIDARG
  else if func.put_vtbl_off = 0 then
    if compat_ge compat .COMPAT_MODE_IE9 then S_OK else E_FAIL
  else
    let v := dp.rgvarg.getD 0 .VEmpty
    let coerced : Except HRESULT Variant :=
      if func.prop_vt ≠ .VT_VARIANT ∧ v.vt ≠ func.prop_vt then
        change_type ct v func.prop_vt
      else .ok v
    match coerced with
    | .error hres => hres
    | .ok v' =>
      if func.prop_vt = .VT_VARIANT ∨ is_builtin_type_supported func.prop_vt then
        putter v'
      else E_NOTIMPL

/-- C2: a builtin property PUT must have exactly one positional argument and
no named-argument mismatch, else `E_INVALIDARG`; with no put vtbl slot the put
is a silent no-op exactly in `COMPAT_MODE_IE9` and above, and a hard `E_FAIL`
below. -/
theorem builtin_propput_shape_and_missing_setter
    (ct : ChangeTypeProviders) (putter : Variant → HRESULT)
    (compat : compat_mode_t) (func : func_info_t) (dp : DISPPARAMS)
    (hshape : dp.cArgs = 1 ∧
      ¬(dp.cNamedArgs = 1 ∧ dp.rgdispidNamedArgs.getD 0 0 ≠ DISPID_PROPERTYPUT) ∧
      dp.cNamedArgs ≤ 1) :
    (∀ dp' : DISPPARAMS,
      ¬(dp'.cArgs = 1 ∧
        ¬(dp'.cNamedArgs = 1 ∧ dp'.rgdispidNamedArgs.getD 0 0 ≠ DISPID_PROPERTYPUT) ∧
        dp'.cNamedArgs ≤ 1) →
      builtin_propput ct putter compat func dp' = E_INVALIDARG) ∧
    (func.put_vtbl_off = 0 →
      (builtin_propput ct putter compat func dp = S_OK ↔
        compat_ge compat .COMPAT_MODE_IE9 = true) ∧
      (compat_ge compat .COMPAT_MODE_IE9 = false →
        builtin_propput ct putter compat func dp = E_FAIL)) := by
  constructor
  · intro dp' hbad
    unfold builtin_propput
    rw [if_pos]
    by_cases h1 : dp'.cArgs = 1
    · by_cases h2 : dp'.cNamedArgs = 1 ∧ dp'.rgdispidNamedArgs.getD 0 0 ≠ DISPID_PROPERTYPUT
      · exact Or.inr (Or.inl h2)
      · refine Or.inr (Or.inr ?_)
        by_contra hle
        exact hbad ⟨h1, h2, by omega⟩
    · exact Or.inl h1
  · intro hput
    obtain ⟨h1, h2, h3⟩ := hshape
    have hcond : ¬(dp.cArgs ≠ 1 ∨
        (dp.cNamedArgs = 1 ∧ dp.rgdispidNamedArgs.getD 0 0 ≠ DISPID_PROPERTYPUT) ∨
        dp.cNamedArgs > 1) := by
      rintro (h | h | h)
      · exact h h1
      · exact h2 h
      · omega
    constructor
    · unfold builtin_propput
      rw [if_neg hcond, if_pos hput]
      by_cases hge : compat_ge compat .COMPAT_MODE_IE9 = true
      · simp [hge, S_OK]
      · simp only [Bool.not_eq_true] at hge
        simp [hge, S_OK, E_FAIL]
    · intro hlt
      unfold builtin_propput
      rw [if_neg hcond, if_pos hput, if_neg (by simp [hlt])]

/-- Witness for `builtin_propput_shape_and_missing_setter` at a concrete
mode-IE8 call with one positional argument and no setter. -/
theorem builtin_propput_shape_and_missing_setter_witness :
    let ct : ChangeTypeProviders := ⟨none, fun _ _ => .error DISP_E_TYPEMISMATCH⟩
    let putter : Variant → HRESULT := fun _ => S_OK
    let func : func_info_t := ⟨5, "x", 0, false, 0, 0, 7, -1, 0, 0, .VT_BSTR, [], []⟩
    let dp : DISPPARAMS := ⟨[.VBstr (some "v")], [DISPID_PROPERTYPUT]⟩
    builtin_propput ct putter .COMPAT_MODE_IE8 func dp = E_FAIL ∧
    builtin_propput ct putter .COMPAT_MODE_IE9 func dp = S_OK ∧
    builtin_propput ct putter .COMPAT_MODE_IE8 func ⟨[], []⟩ = E_INVALIDARG := by
  intro ct putter func dp
  refine ⟨?_, ?_, ?_⟩
  · exact ((builtin_propput_shape_and_missing_setter ct putter .COMPAT_MODE_IE8 func dp
      (by constructor <;> simp [DISPPARAMS.cArgs, DISPPARAMS.cNamedArgs])).2 rfl).2 (by decide)
  · exact ((builtin_propput_shape_and_missing_setter ct putter .COMPAT_MODE_IE9 func dp
      (by constructor <;> simp [DISPPARAMS.cArgs, DISPPARAMS.cNamedArgs])).2 rfl).1.mpr (by decide)
  · exact (builtin_propput_shape_and_missing_setter ct putter .COMPAT_MODE_IE8 func dp
      (by constructor <;> simp [DISPPARAMS.cArgs, DISPPARAMS.cNamedArgs])).1 ⟨[], []⟩
      (by simp [DISPPARAMS.cArgs, DISPPARAMS.cNamedArgs])

/-- The external collaborators of `invoke_builtin_function`: whether the
`this` object implements the member's source interface
(`IDispatch_QueryInterface(this_obj, tid_ids[func->tid])`), the outcome of a
per-member hook when one is installed (`none` models "no hook dispex found or
the hook returned `S_FALSE`"), the coercion providers, the narrowing
`QueryInterface` on argument objects, the `ITypeInfo::Invoke` generic fallback
and the native `DispCallFunc` slot call (returning the member's own `HRESULT`
and result value; the call mechanism itself is modelled as succeeding). -/
structure InvokeEnv where
  qi_tid_ok : Bool
  hook_result : Option (HRESULT × Option Variant)
  ct : ChangeTypeProviders
  qi_narrow : Nat → Nat → Except HRESULT Nat
  typeinfo : DISPPARAMS → HRESULT × Option Variant
  native : List Variant → HRESULT × Variant

/-- `typeinfo_invoke` (dispex.c:905): excess arguments beyond `func->argc` are
dropped from the head of `rgvarg`, named arguments are dropped, and the
resulting window is handed to `ITypeInfo::Invoke`. -/
def typeinfo_invoke (ti : DISPPARAMS → HRESULT × Option Variant)
    (func : func_info_t) (dp : DISPPARAMS) : HRESULT × Option Variant :=
  let params : DISPPARAMS :=
    ⟨if func.argc < dp.cArgs then dp.rgvarg.drop (dp.cArgs - func.argc) else dp.rgvarg, []⟩
  ti params

/-- One iteration of the argument-marshalling loop of
`invoke_builtin_function` (dispex.c:1629-1663): position `i` beyond the
supplied `cArgs` takes its declared default value verbatim; otherwise the
argument is read right-aligned from `rgvarg`, coerced through `change_type`
when its tag differs from the declared one, and narrowed through
`QueryInterface` when the declared type is `VT_DISPATCH` with a non-NULL
IID and the value is a non-NULL object. -/
def build_arg (env : InvokeEnv) (func : func_info_t) (dp : DISPPARAMS) (i : Nat) :
    Except HRESULT Variant :=
  if dp.cArgs ≤ i then
    .ok (func.arg_info.getD i default).default_value
  else
    let arg := dp.rgvarg.getD (dp.cArgs - i - 1) .VEmpty
    let ty := func.arg_types.getD i .VT_EMPTY
    let conv : Except HRESULT Variant :=
      if ty = arg.vt then .ok arg else change_type env.ct arg ty
    match conv with
    | .error hres => .error hres
    | .ok v =>
      match ty, (func.arg_info.getD i default).iid, v with
      | .VT_DISPATCH, some iid, .VDispatch (some obj) =>
        (match env.qi_narrow obj iid with
         | .ok obj' => .ok (.VDispatch (some obj'))
         | .error hres => .error hres)
      | _, _, _ => .ok v

/-- The marshalling loop for positions `0 .. n-1`, stopping at the first
failing position as the C `break` does. -/
def build_args (env : InvokeEnv) (func : func_info_t) (dp : DISPPARAMS) :
    Nat → Except HRESULT (List Variant)
  | 0 => .ok []
  | n + 1 =>
    match build_args env func dp n with
    | .error hres => .error hres
    | .ok l =>
      match build_arg env func dp n with
      | .error hres => .error hres
      | .ok v => .ok (l ++ [v])

/-- `invoke_builtin_function` (dispex.c:1595): interface lookup, optional
hook, `ITypeInfo` fallback when there is no native call slot, arity check
against `argc - default_value_cnt`, argument marshalling, and the native call
whose `V_ERROR` result is returned together with the typed return slot
(`VT_EMPTY` for `VT_VOID` members). -/
def invoke_builtin_function (env : InvokeEnv) (func : func_info_t) (dp : DISPPARAMS) :
    HRESULT × Option Variant :=
  if ¬env.qi_tid_ok then (E_UNEXPECTED, none)
  else
    match (if func.hook then env.hook_result else none) with
    | some r => r
    | none =>
      if func.call_vtbl_off = 0 then
        typeinfo_invoke env.typeinfo func dp
      else if dp.cArgs + func.default_value_cnt < func.argc then
        (E_INVALIDARG, none)
      else
        match build_args env func dp func.argc with
        | .error hres => (hres, none)
        | .ok args =>
          let vr := env.native args
          if FAILED vr.1 then (vr.1, none)
          else (vr.1, some (if func.prop_vt = .VT_VOID then .VEmpty else vr.2))

/-- The positional argument vector a native call receives: the last
`argc` entries of `rgvarg` reversed into logical order (right-aligned window),
extended with the declared default values for unsupplied trailing
positions. -/
def call_args_spec (func : func_info_t) (dp : DISPPARAMS) : List Variant :=
  (dp.rgvarg.drop (dp.cArgs - func.argc)).reverse ++
    (func.arg_info.drop dp.cArgs).map (·.default_value)

theorem call_args_spec_length (func : func_info_t) (dp : DISPPARAMS)
    (hinfo : func.arg_info.length = func.argc) :
    (call_args_spec func dp).length = func.argc := by
  simp [call_args_spec, hinfo, DISPPARAMS.cArgs]
  omega

theorem call_args_spec_supplied (func : func_info_t) (dp : DISPPARAMS)
    (hinfo : func.arg_info.length = func.argc)
    (i : Nat) (hi : i < min dp.cArgs func.argc) :
    (call_args_spec func dp).getD i .VEmpty = dp.rgvarg.getD (dp.cArgs - i - 1) .VEmpty := by
  have hlen1 : (dp.rgvarg.drop (dp.cArgs - func.argc)).reverse.length = min dp.cArgs func.argc := by
    simp [DISPPARAMS.cArgs]
    omega
  have hi1 : i < (dp.rgvarg.drop (dp.cArgs - func.argc)).reverse.length := by omega
  have hids : dp.cArgs - i - 1 < dp.rgvarg.length := by
    simp [DISPPARAMS.cArgs] at hi ⊢
    omega
  rw [call_args_spec, List.getD_append _ _ _ _ hi1, List.getD_eq_getElem _ _ hi1,
    List.getElem_reverse, List.getElem_drop, List.getD_eq_getElem _ _ hids]
  congr 1
  simp [DISPPARAMS.cArgs] at hi ⊢
  omega

theorem call_args_spec_defaults (func : func_info_t) (dp : DISPPARAMS)
    (hinfo : func.arg_info.length = func.argc)
    (i : Nat) (hlo : dp.cArgs ≤ i) (hhi : i < func.argc) :
    (call_args_spec func dp).getD i .VEmpty = (func.arg_info.getD i default).default_value := by
  have hc : dp.cArgs = dp.rgvarg.length := rfl
  have hm : dp.cArgs < func.argc := by omega
  have hlen1 : (dp.rgvarg.drop (dp.cArgs - func.argc)).reverse.length = dp.cArgs := by
    simp only [List.length_reverse, List.length_drop]
    omega
  have h1 : ¬ i < (dp.rgvarg.drop (dp.cArgs - func.argc)).reverse.length := by omega
  have h2 : i - dp.cArgs < (func.arg_info.drop dp.cArgs).length := by
    simp [hinfo]
    omega
  have h3 : i < func.arg_info.length := by omega
  rw [call_args_spec, List.getD_append_right _ _ _ _ (by omega), hlen1]
  rw [List.getD_eq_getElem _ _ (by simpa using h2), List.getElem_map, List.getElem_drop,
    List.getD_eq_getElem _ _ h3]
  congr 2
  omega

theorem build_args_ok (env : InvokeEnv) (func : func_info_t) (dp : DISPPARAMS)
    (g : Nat → Variant) (n : Nat)
    (h : ∀ i, i < n → build_arg env func dp i = .ok (g i)) :
    build_args env func dp n = .ok ((List.range n).map g) := by
  induction n with
  | zero => simp [build_args]
  | succ n ih =>
    rw [build_args, ih (fun i hi => h i (by omega)), h n (by omega), List.range_succ]
    simp

/-- C1: a builtin method with a native dispatch offset, `N` required and `K`
trailing default-valued parameters (`argc = N + K`, `default_value_cnt = K`):
fewer than `N` supplied arguments fail with `E_INVALIDARG`; otherwise (when
the supplied argument tags match the declaration and no narrowing IID is
declared) the native slot is called on `call_args_spec`, in which each
position below `cArgs` is the right-aligned `rgvarg` entry (so past `N + K`
supplied arguments only the last `argc` survive) and each position from
`cArgs` on is the declared default value verbatim. -/
theorem invoke_builtin_function_arity (env : InvokeEnv) (func : func_info_t)
    (N K : Nat) (dp : DISPPARAMS)
    (hargc : func.argc = N + K) (hK : func.default_value_cnt = K)
    (hinfo : func.arg_info.length = func.argc)
    (hoff : func.call_vtbl_off ≠ 0) (hqi : env.qi_tid_ok = true)
    (hhook : func.hook = false) :
    (dp.cArgs < N → invoke_builtin_function env func dp = (E_INVALIDARG, none)) ∧
    ((∀ i, i < min dp.cArgs func.argc →
        (dp.rgvarg.getD (dp.cArgs - i - 1) .VEmpty).vt = func.arg_types.getD i .VT_EMPTY) →
      (∀ i, i < func.argc → (func.arg_info.getD i default).iid = none) →
      N ≤ dp.cArgs →
      invoke_builtin_function env func dp =
        (let vr := env.native (call_args_spec func dp)
         if FAILED vr.1 then (vr.1, none)
         else (vr.1, some (if func.prop_vt = .VT_VOID then .VEmpty else vr.2)))) ∧
    (∀ i, i < min dp.cArgs func.argc →
      (call_args_spec func dp).getD i .VEmpty = dp.rgvarg.getD (dp.cArgs - i - 1) .VEmpty) ∧
    (∀ i, dp.cArgs ≤ i → i < func.argc →
      (call_args_spec func dp).getD i .VEmpty = (func.arg_info.getD i default).default_value) := by
  refine ⟨?_, ?_, fun i hi => call_args_spec_supplied func dp hinfo i hi,
    fun i h1 h2 => call_args_spec_defaults func dp hinfo i h1 h2⟩
  · intro hlt
    have hcnt : dp.cArgs + func.default_value_cnt < func.argc := by omega
    simp [invoke_builtin_function, hqi, hhook, hoff, hcnt]
  · intro htypes hiid hge
    have hcnt : ¬(dp.cArgs + func.default_value_cnt < func.argc) := by omega
    have hmap : (List.range func.argc).map (fun i => (call_args_spec func dp).getD i .VEmpty) =
        call_args_spec func dp := by
      apply List.ext_getElem
      · simp [call_args_spec_length func dp hinfo]
      · intro i h1 h2
        simp only [List.getElem_map, List.getElem_range]
        rw [List.getD_eq_getElem _ _ h2]
    have hargs : build_args env func dp func.argc = .ok (call_args_spec func dp) := by
      rw [← hmap]
      apply build_args_ok
      intro i hi
      by_cases hsup : dp.cArgs ≤ i
      · rw [call_args_spec_defaults func dp hinfo i hsup hi]
        unfold build_arg
        rw [if_pos hsup]
      · push_neg at hsup
        have hmin : i < min dp.cArgs func.argc := by omega
        rw [call_args_spec_supplied func dp hinfo i hmin]
        unfold build_arg
        rw [if_neg (by omega)]
        simp only
        rw [if_pos (htypes i hmin).symm]
        simp only
        rw [hiid i hi]
        split <;> simp_all
    simp [invoke_builtin_function, hqi, hhook, hoff, hcnt, hargs]

/-- Witness for `invoke_builtin_function_arity`: a method with one required
and one defaulted parameter, called with a single matching argument. -/
theorem invoke_builtin_function_arity_witness :
    let func : func_info_t :=
      ⟨3, "area", 0, false, 9, 0, 0, 0, 2, 1, .VT_I4, [.VT_I4, .VT_I4],
        [⟨none, .VEmpty⟩, ⟨none, .VI4 7⟩]⟩
    let env : InvokeEnv :=
      ⟨true, none, ⟨none, fun _ _ => .error DISP_E_TYPEMISMATCH⟩,
        fun _ _ => .error E_NOINTERFACE, fun _ => (E_NOTIMPL, none),
        fun args => (S_OK, .VI4 (args.getD 0 .VEmpty).i4D)⟩
    let dp : DISPPARAMS := ⟨[.VI4 5], []⟩
    invoke_builtin_function env func dp = (S_OK, some (.VI4 5)) ∧
    invoke_builtin_function env func ⟨[], []⟩ = (E_INVALIDARG, none) ∧
    (call_args_spec func dp).getD 1 .VEmpty = .VI4 7 := by
  intro func env dp
  refine ⟨?_, ?_, ?_⟩
  · have h := ((invoke_builtin_function_arity env func 1 1 dp rfl rfl rfl
      (by decide) rfl rfl).2.1
      (by decide) (by decide) (by decide))
    rw [h]
    rfl
  · exact (invoke_builtin_function_arity env func 1 1 ⟨[], []⟩ rfl rfl rfl
      (by decide) rfl rfl).1 (by decide)
  · exact (invoke_builtin_function_arity env func 1 1 dp rfl rfl rfl
      (by decide) rfl rfl).2.2.2 1 (by decide) (by decide)

/-- The engine-intrinsic facets of a function wrapper (`function_props`,
dispex.c:1118): their names, in table order. -/
def function_props_names : List String := ["apply", "call"]

/-- A function wrapper object (`func_disp_t`): `obj_attached` models the
owner back-reference `This->obj` being non-NULL; `info = none` models a
wrapper bound to an engine-intrinsic facet selected by `idx`. -/
structure func_disp_t where
  obj_attached : Bool
  info : Option func_info_t
  idx : Nat
deriving Repr

/-- `wcsicmp`-style case-insensitive string equality. -/
def strieq (a b : String) : Bool := a.toLower = b.toLower

/-- `function_value` (dispex.c:1131): `DISPATCH_CONSTRUCT` is rejected;
method invocation forwards to `invoke_builtin_function` on the owner (failing
when detached or intrinsic); `DISPATCH_PROPERTYGET` requires a caller-identity
token (`IServiceProvider *caller`, modelled as a Boolean presence) and builds
the native-code signature string from the member's name. -/
def function_value (env : InvokeEnv) (fd : func_disp_t) (flags : Nat)
    (dp : DISPPARAMS) (res_provided : Bool) (caller : Bool) :
    HRESULT × Option Variant :=
  if flags = DISPATCH_CONSTRUCT then (MSHTML_E_INVALID_PROPERTY, none)
  else if flags = DISPATCH_METHOD + DISPATCH_PROPERTYGET ∧ ¬res_provided then
    (E_INVALIDARG, none)
  else if flags = DISPATCH_METHOD ∨ flags = DISPATCH_METHOD + DISPATCH_PROPERTYGET then
    match fd.info with
    | none => (MSHTML_E_INVALID_PROPERTY, none)
    | some info =>
      if ¬fd.obj_attached then (E_UNEXPECTED, none)
      else invoke_builtin_function env info dp
  else if flags = DISPATCH_PROPERTYGET then
    if ¬caller then (E_ACCESSDENIED, none)
    else
      let name :=
        match fd.info with
        | some info => info.name
        | none => function_props_names.getD fd.idx ""
      (S_OK, some (.VBstr (some ("\nfunction " ++ name ++ "() \x7b\n    [native code]\n\x7d\n"))))
  else (E_NOTIMPL, none)

/-- C7: a GET of a function wrapper's value without a caller-identity token
fails with `E_ACCESSDENIED` and produces no result; with the token it
succeeds and returns the signature string built from the member's name. -/
theorem function_value_stringification (env : InvokeEnv) (fd : func_disp_t)
    (info : func_info_t) (dp : DISPPARAMS) (res_provided : Bool)
    (hinfo : fd.info = some info) :
    function_value env fd DISPATCH_PROPERTYGET dp res_provided false =
      (E_ACCESSDENIED, none) ∧
    function_value env fd DISPATCH_PROPERTYGET dp res_provided true =
      (S_OK, some (.VBstr (some
        ("\nfunction " ++ info.name ++ "() \x7b\n    [native code]\n\x7d\n")))) := by
  constructor
  · unfold function_value
    rw [if_neg (by decide), if_neg (by simp [DISPATCH_METHOD, DISPATCH_PROPERTYGET]),
      if_neg (by decide), if_pos rfl, if_pos (by simp)]
  · unfold function_value
    rw [if_neg (by decide), if_neg (by simp [DISPATCH_METHOD, DISPATCH_PROPERTYGET]),
      if_neg (by decide), if_pos rfl, if_neg (by simp), hinfo]

/-- Witness for `function_value_stringification` on a wrapper for a member
named `item`. -/
theorem function_value_stringification_witness :
    let env : InvokeEnv :=
      ⟨true, none, ⟨none, fun _ _ => .error DISP_E_TYPEMISMATCH⟩,
        fun _ _ => .error E_NOINTERFACE, fun _ => (E_NOTIMPL, none),
        fun _ => (S_OK, .VEmpty)⟩
    let info : func_info_t :=
      ⟨2, "item", 0, false, 8, 0, 0, 0, 1, 0, .VT_VARIANT, [.VT_VARIANT], [⟨none, .VEmpty⟩]⟩
    let fd : func_disp_t := ⟨true, some info, 0⟩
    function_value env fd DISPATCH_PROPERTYGET ⟨[], []⟩ true false =
      (E_ACCESSDENIED, none) ∧
    function_value env fd DISPATCH_PROPERTYGET ⟨[], []⟩ true true =
      (S_OK, some (.VBstr (some "\nfunction item() \x7b\n    [native code]\n\x7d\n"))) := by
  intro env info fd
  exact function_value_stringification env fd info ⟨[], []⟩ true rfl

/-- `function_get_dispid` (dispex.c:1190): an intrinsic facet (`info == NULL`)
resolves no name at all ("can't chain apply/call"); otherwise the
`function_props` table is scanned with the requested case sensitivity. -/
def function_get_dispid (fd : func_disp_t) (name : String) (caseInsensitive : Bool) :
    Except HRESULT DISPID :=
  match fd.info with
  | none => .error DISP_E_UNKNOWNNAME
  | some _ =>
    match (List.range function_props_names.length).find?
        (fun i =>
          if caseInsensitive then strieq name (function_props_names.getD i "")
          else name = function_props_names.getD i "") with
    | some i => .ok (MSHTML_DISPID_CUSTOM_MIN + i)
    | none => .error DISP_E_UNKNOWNNAME

/-- `function_get_name` (dispex.c:1208): the identifier is rebased into the
`function_props` table with `DWORD` wraparound; out-of-table identifiers and
intrinsic facets report `DISP_E_MEMBERNOTFOUND`. -/
def function_get_name (fd : func_disp_t) (id : DISPID) : Except HRESULT String :=
  let idx := dword_sub id MSHTML_DISPID_CUSTOM_MIN
  if function_props_names.length ≤ idx ∨ fd.info = none then
    .error DISP_E_MEMBERNOTFOUND
  else .ok (function_props_names.getD idx "")

/-- C10: a wrapper bound to an engine-intrinsic facet (not bound to a
`func_info_t`) resolves no name (including "apply" and "call") and reports
`DISP_E_MEMBERNOTFOUND` for every identifier, so the intrinsic facets expose
no members and apply/call cannot be chained. -/
theorem function_intrinsic_no_members (fd : func_disp_t) (hinfo : fd.info = none) :
    (∀ name caseInsensitive,
      function_get_dispid fd name caseInsensitive = .error DISP_E_UNKNOWNNAME) ∧
    (∀ id, function_get_name fd id = .error DISP_E_MEMBERNOTFOUND) := by
  constructor
  · intro name ci
    unfold function_get_dispid
    rw [hinfo]
  · intro id
    unfold function_get_name
    rw [if_pos (Or.inr hinfo)]

/-- Witness for `function_intrinsic_no_members` on the detached `apply` facet,
probed with the name "apply" and the first custom identifier. -/
theorem function_intrinsic_no_members_witness :
    let fd : func_disp_t := ⟨false, none, 0⟩
    function_get_dispid fd "apply" false = .error DISP_E_UNKNOWNNAME ∧
    function_get_name fd MSHTML_DISPID_CUSTOM_MIN = .error DISP_E_MEMBERNOTFOUND := by
  intro fd
  exact ⟨(function_intrinsic_no_members fd rfl).1 "apply" false,
    (function_intrinsic_no_members fd rfl).2 MSHTML_DISPID_CUSTOM_MIN⟩

/-- A dynamic (expando) property (`dynamic_prop_t`): name, tagged value and
the three `DYNPROP_*` flag bits. -/
structure dynamic_prop_t where
  name : String
  var : Variant
  deleted : Bool
  hidden : Bool
  protref : Bool
deriving DecidableEq, Repr

instance : Inhabited dynamic_prop_t := ⟨⟨"", .VEmpty, false, false, false⟩⟩

/-- The dispatch-object state the dynamic-store operations act on: the
dynamic property array (`dynamic_data->props`, allocated eagerly in the
model and populated before the calls under study; the class
`populate_props` hook is an external seeding collaborator) and the optional
prototype (`This->prototype`).  The engine only ever creates one level of
prototypes (`get_legacy_prototype` calls `init_dispatch` with a NULL window,
leaving the prototype's own `prototype` field NULL), but the type permits
deeper chains so that one-level-ness is provable rather than assumed. -/
inductive DispatchEx where
  | mk (props : List dynamic_prop_t) (prototype : Option DispatchEx)

def DispatchEx.props : DispatchEx → List dynamic_prop_t
  | .mk props _ => props

def DispatchEx.prototype : DispatchEx → Option DispatchEx
  | .mk _ proto => proto

def DispatchEx.setProps : DispatchEx → List dynamic_prop_t → DispatchEx
  | .mk _ proto, props => .mk props proto

def DispatchEx.setProto : DispatchEx → Option DispatchEx → DispatchEx
  | .mk props _, proto => .mk props proto

/-- In-place update of one property slot (`*prop = ...` through the pointer
into the store). -/
def DispatchEx.setProp (this : DispatchEx) (i : Nat) (p : dynamic_prop_t) : DispatchEx :=
  this.setProps (this.props.set i p)

/-- Length of the prototype chain, the termination measure for the
state-passing recursion. -/
def DispatchEx.depth : DispatchEx → Nat
  | .mk _ none => 0
  | .mk _ (some p) => p.depth + 1

theorem DispatchEx.depth_lt (this proto : DispatchEx) (h : this.prototype = some proto) :
    proto.depth < this.depth := by
  cases this with
  | mk props p =>
    cases p with
    | none => simp [DispatchEx.prototype] at h
    | some q =>
      simp [DispatchEx.prototype] at h
      subst h
      simp [DispatchEx.depth]

/-- The `fdexName*` bits `get_dynamic_prop` inspects. -/
structure GetFlags where
  ensure : Bool
  caseInsensitive : Bool
deriving DecidableEq, Repr

/-- The per-request name comparison: `wcsicmp` under
`fdexNameCaseInsensitive`, `wcscmp` otherwise. -/
def name_matches (flags : GetFlags) (a b : String) : Bool :=
  if flags.caseInsensitive then strieq a b else a = b

mutual

/-- `fixup_prop_ref` (dispex.c:747): a DELETED slot is revived as a PROTREF
when the prototype (consulted case-sensitively through `get_dynamic_prop`)
now holds a live property of that name; a PROTREF slot whose referenced
prototype slot has since been deleted is re-flagged DELETED.  The flag
updates are whole-word assignments (`prop->flags = DYNPROP_PROTREF` /
`= DYNPROP_DELETED`), and the PROTREF index is stored through the variant
union (`V_UI4(&prop->var)`). -/
def fixup_prop_ref (this : DispatchEx) (i : Nat) : DispatchEx :=
  let prop := this.props.getD i default
  if prop.deleted then
    match h : this.prototype with
    | none => this
    | some proto =>
      match get_dynamic_prop proto prop.name ⟨false, false⟩ with
      | (proto', .error _) => this.setProto (some proto')
      | (proto', .ok j) =>
        let this' := this.setProto (some proto')
        if ¬(proto'.props.getD j default).deleted then
          this'.setProp i
            { prop with deleted := false, hidden := false, protref := true, var := .VUI4 j }
        else this'
  else if prop.protref then
    match this.prototype with
    | none => this
    | some proto =>
      if (proto.props.getD prop.var.ui4D default).deleted then
        this.setProp i { prop with deleted := true, hidden := false, protref := false }
      else this
  else this
termination_by (this.depth, 0)
decreasing_by
  exact Prod.Lex.left _ _ (DispatchEx.depth_lt this proto h)

/-- `get_dynamic_prop` (dispex.c:782): linear scan by name with the requested
case sensitivity, fixing up the matching slot; a DELETED match is revived
under `fdexNameEnsure` and reported unknown otherwise; with no match the
prototype is consulted case-sensitively and a new slot is appended (a PROTREF
placeholder when the prototype holds the property live, even without
`fdexNameEnsure`).  Returns the updated state and the store index of the
slot. -/
def get_dynamic_prop (this : DispatchEx) (name : String) (flags : GetFlags) :
    DispatchEx × Except HRESULT Nat :=
  match List.findIdx? (fun p => name_matches flags p.name name) this.props with
  | some i =>
    let this' := fixup_prop_ref this i
    let prop := this'.props.getD i default
    if prop.deleted then
      if ¬flags.ensure then (this', .error DISP_E_UNKNOWNNAME)
      else (this'.setProp i { prop with deleted := false }, .ok i)
    else (this', .ok i)
  | none =>
    let consult : DispatchEx × Option Nat × Option HRESULT :=
      match h : this.prototype with
      | none => (this, none, none)
      | some proto =>
        match get_dynamic_prop proto name ⟨false, false⟩ with
        | (proto', .ok j) =>
          (this.setProto (some proto'),
           if (proto'.props.getD j default).deleted then none else some j, none)
        | (proto', .error e) =>
          (this.setProto (some proto'), none,
           if e ≠ DISP_E_UNKNOWNNAME then some e else none)
    match consult with
    | (this', _, some e) => (this', .error e)
    | (this', protProp, none) =>
      if ¬flags.ensure ∧ protProp = none then (this', .error DISP_E_UNKNOWNNAME)
      else
        let newProp : dynamic_prop_t :=
          { name := name,
            var := match protProp with | some j => .VUI4 j | none => .VEmpty,
            deleted := false, hidden := false, protref := protProp.isSome }
        (this'.setProps (this'.props ++ [newProp]), .ok this'.props.length)
termination_by (this.depth, 1)
decreasing_by
  · exact Prod.Lex.right _ (by omega)
  · exact Prod.Lex.left _ _ (DispatchEx.depth_lt this proto h)

end

/-- `dispex_delete_prop` (dispex.c:3354), with no custom-member delete hook
installed.  Below `COMPAT_MODE_IE8` deletion is not implemented by IE; for a
dynamic identifier an out-of-store index is a silent success, a PROTREF slot
is left untouched (deletion must observe through to the prototype, resolved
lazily on the next read), and otherwise the value is released and DELETED is
OR-ed in; a builtin identifier only resets a function-object override (state
not carried here) and reports success. -/
def dispex_delete_prop (compat : compat_mode_t) (this : DispatchEx) (id : DISPID) :
    DispatchEx × HRESULT :=
  if ¬compat_ge compat .COMPAT_MODE_IE8 then (this, E_NOTIMPL)
  else
    match get_dispid_type id with
    | .DISPEXPROP_DYNAMIC =>
      let idx := dword_sub id DISPID_DYNPROP_0
      if this.props.length ≤ idx then (this, S_OK)
      else
        let prop := this.props.getD idx default
        if ¬prop.protref then
          (this.setProp idx { prop with var := .VEmpty, deleted := true }, S_OK)
        else (this, S_OK)
    | _ => (this, S_OK)

/-- The external collaborator of the dynamic `DISPATCH_METHOD` path:
`invoke_disp_value` on the stored callable. -/
structure DynInvokeEnv where
  disp_value : Option Nat → DISPPARAMS → HRESULT × Option Variant

/-- The `DISPEXPROP_DYNAMIC` branch of `dispex_invoke` (dispex.c:3279-3333);
`wFlags` is taken after the entry normalization of
`DISPATCH_PROPERTYPUT|DISPATCH_PROPERTYPUTREF` to `DISPATCH_PROPERTYPUT`.
GET and METHOD fix up the slot, fail on a DELETED slot and read through a
PROTREF to the prototype's slot; PUT validates the argument shape, stores a
copy of the value into the slot and clears its DELETED and PROTREF flags. -/
def dispex_invoke_dynamic (env : DynInvokeEnv) (this : DispatchEx) (id : DISPID)
    (wFlags : Nat) (dp : DISPPARAMS) (res_provided : Bool) :
    DispatchEx × HRESULT × Option Variant :=
  let idx := dword_sub id DISPID_DYNPROP_0
  if this.props.length ≤ idx then (this, DISP_E_MEMBERNOTFOUND, none)
  else if wFlags = DISPATCH_METHOD ∨ wFlags = DISPATCH_METHOD + DISPATCH_PROPERTYGET then
    if wFlags = DISPATCH_METHOD + DISPATCH_PROPERTYGET ∧ ¬res_provided then
      (this, E_INVALIDARG, none)
    else
      let this' := fixup_prop_ref this idx
      let prop := this'.props.getD idx default
      if prop.deleted then (this', DISP_E_MEMBERNOTFOUND, none)
      else
        let target :=
          if prop.protref then
            match this'.prototype with
            | some proto => proto.props.getD prop.var.ui4D default
            | none => default
          else prop
        match target.var with
        | .VDispatch p =>
          let r := env.disp_value p dp
          (this', r.1, r.2)
        | _ => (this', E_NOTIMPL, none)
  else if wFlags = DISPATCH_PROPERTYGET then
    let this' := fixup_prop_ref this idx
    let prop := this'.props.getD idx default
    if prop.deleted then (this', DISP_E_MEMBERNOTFOUND, none)
    else
      let target :=
        if prop.protref then
          match this'.prototype with
          | some proto => proto.props.getD prop.var.ui4D default
          | none => default
        else prop
      match variant_copy target.var with
      | .ok v => (this', S_OK, some v)
      | .error e => (this', e, none)
  else if wFlags = DISPATCH_PROPERTYPUT then
    if dp.cArgs ≠ 1 ∨
        (dp.cNamedArgs = 1 ∧ dp.rgdispidNamedArgs.getD 0 0 ≠ DISPID_PROPERTYPUT) ∨
        dp.cNamedArgs > 1 then
      (this, E_INVALIDARG, none)
    else
      let prop := this.props.getD idx default
      match variant_copy (dp.rgvarg.getD 0 .VEmpty) with
      | .error e => (this.setProp idx { prop with var := .VEmpty }, e, none)
      | .ok v =>
        (this.setProp idx { prop with var := v, deleted := false, protref := false },
         S_OK, none)
  else (this, E_NOTIMPL, none)

/-- The name column of the store, which the scan of `get_dynamic_prop` is a
function of. -/
def DispatchEx.names (this : DispatchEx) : List String := this.props.map (·.name)

theorem DispatchEx.names_setProto (this : DispatchEx) (p : Option DispatchEx) :
    (this.setProto p).names = this.names := by
  cases this
  rfl

theorem DispatchEx.props_setProto (this : DispatchEx) (p : Option DispatchEx) :
    (this.setProto p).props = this.props := by
  cases this
  rfl

theorem DispatchEx.props_setProps (this : DispatchEx) (l : List dynamic_prop_t) :
    (this.setProps l).props = l := by
  cases this
  rfl

theorem DispatchEx.names_setProp (this : DispatchEx) (i : Nat) (p : dynamic_prop_t)
    (h : p.name = (this.props.getD i default).name) :
    (this.setProp i p).names = this.names := by
  cases this with
  | mk props proto =>
    show (props.set i p).map (·.name) = props.map (·.name)
    by_cases hi : i < props.length
    · rw [List.map_set]
      have hpn : p.name = (props.map (fun x => x.name)).getD i "" := by
        have h' : p.name = (props.getD i default).name := h
        rw [h', List.getD_eq_getElem _ _ hi, List.getD_eq_getElem _ _ (by simpa using hi)]
        simp
      rw [hpn]
      apply List.ext_getElem
      · simp
      · intro n h1 h2
        simp only [List.getElem_set]
        split
        · next he =>
          subst he
          rw [List.getD_eq_getElem _ _ h2]
        · rfl
    · rw [List.set_eq_of_length_le (by omega)]

theorem DispatchEx.props_setProp (this : DispatchEx) (i : Nat) (p : dynamic_prop_t) :
    (this.setProp i p).props = this.props.set i p := by
  cases this
  rfl

theorem DispatchEx.prototype_setProp (this : DispatchEx) (i : Nat) (p : dynamic_prop_t) :
    (this.setProp i p).prototype = this.prototype := by
  cases this
  rfl

/-- `fixup_prop_ref` never changes the name column of the store. -/
theorem fixup_prop_ref_names (this : DispatchEx) (i : Nat) :
    (fixup_prop_ref this i).names = this.names := by
  unfold fixup_prop_ref
  rcases hproto : this.prototype with _ | proto
  · simp only [hproto]
    split
    · rfl
    · split
      · rfl
      · rfl
  · simp only [hproto]
    split
    · split
      · exact DispatchEx.names_setProto ..
      · split
        · rw [DispatchEx.names_setProp]
          · exact DispatchEx.names_setProto ..
          · rw [DispatchEx.props_setProto]
        · exact DispatchEx.names_setProto ..
    · split
      · split
        · exact DispatchEx.names_setProp _ _ _ rfl
        · rfl
      · rfl

theorem name_matches_refl (flags : GetFlags) (x : String) :
    name_matches flags x x = true := by
  unfold name_matches strieq
  split <;> simp

/-- The scan of `get_dynamic_prop` is a function of the name column only. -/
theorem findIdx_name_congr (flags : GetFlags) (x : String)
    (l₁ l₂ : List dynamic_prop_t)
    (h : l₁.map (·.name) = l₂.map (·.name)) :
    List.findIdx? (fun p => name_matches flags p.name x) l₁ =
      List.findIdx? (fun p => name_matches flags p.name x) l₂ := by
  have h1 := @List.findIdx?_map _ _ (fun s => name_matches flags s x)
    (fun p : dynamic_prop_t => p.name) l₁
  have h2 := @List.findIdx?_map _ _ (fun s => name_matches flags s x)
    (fun p : dynamic_prop_t => p.name) l₂
  have : List.findIdx? (fun s => name_matches flags s x) (l₁.map (·.name)) =
      List.findIdx? (fun s => name_matches flags s x) (l₂.map (·.name)) := by rw [h]
  rw [h1, h2] at this
  exact this

/-- When the scan finds slot `i` and `fdexNameEnsure` is set,
`get_dynamic_prop` revives the slot in place and returns its index: no slot is
appended and the name column is unchanged. -/
theorem get_dynamic_prop_found_ensure (t : DispatchEx) (x : String) (flags : GetFlags)
    (i : Nat) (he : flags.ensure = true)
    (hf : List.findIdx? (fun p => name_matches flags p.name x) t.props = some i) :
    (get_dynamic_prop t x flags).2 = .ok i ∧
    (get_dynamic_prop t x flags).1.names = t.names := by
  unfold get_dynamic_prop
  simp only [hf, he]
  split
  · rw [if_neg (by simp)]
    refine ⟨rfl, ?_⟩
    rw [DispatchEx.names_setProp]
    · exact fixup_prop_ref_names t i
    · rfl
  · exact ⟨rfl, fixup_prop_ref_names t i⟩

/-- Reduction of `get_dynamic_prop` when the scan misses and there is no
prototype: a plain slot named `x` is appended. -/
theorem get_dynamic_prop_eq_notfound_noproto (props : List dynamic_prop_t) (x : String)
    (flags : GetFlags)
    (hf : List.findIdx? (fun p => name_matches flags p.name x) props = none)
    (he : flags.ensure = true) :
    get_dynamic_prop (.mk props none) x flags =
      (.mk (props ++ [{ name := x, var := .VEmpty, deleted := false,
                        hidden := false, protref := false }]) none,
       .ok props.length) := by
  unfold get_dynamic_prop
  simp only [DispatchEx.props, DispatchEx.prototype, hf, he]
  rw [if_neg (by simp)]
  simp [DispatchEx.setProps, DispatchEx.props]

/-- Reduction of `get_dynamic_prop` when the scan misses and the prototype
lookup reports the name unknown: a plain slot is appended (with the
prototype's state advanced by the lookup). -/
theorem get_dynamic_prop_eq_notfound_proto_unknown (props : List dynamic_prop_t)
    (proto proto' : DispatchEx) (x : String) (flags : GetFlags)
    (hf : List.findIdx? (fun p => name_matches flags p.name x) props = none)
    (he : flags.ensure = true)
    (hg : get_dynamic_prop proto x ⟨false, false⟩ = (proto', .error DISP_E_UNKNOWNNAME)) :
    get_dynamic_prop (.mk props (some proto)) x flags =
      (.mk (props ++ [{ name := x, var := .VEmpty, deleted := false,
                        hidden := false, protref := false }]) (some proto'),
       .ok props.length) := by
  unfold get_dynamic_prop
  simp only [DispatchEx.props, DispatchEx.prototype, hf, he, hg]
  rw [if_neg (by simp)]
  simp [DispatchEx.setProps, DispatchEx.setProto, DispatchEx.props]

/-- Reduction of `get_dynamic_prop` when the scan misses and the prototype
lookup fails with a hard error: the error propagates, the prototype state
advanced. -/
theorem get_dynamic_prop_eq_notfound_proto_error (props : List dynamic_prop_t)
    (proto proto' : DispatchEx) (x : String) (flags : GetFlags) (e : HRESULT)
    (hf : List.findIdx? (fun p => name_matches flags p.name x) props = none)
    (hg : get_dynamic_prop proto x ⟨false, false⟩ = (proto', .error e))
    (hu : e ≠ DISP_E_UNKNOWNNAME) :
    get_dynamic_prop (.mk props (some proto)) x flags =
      (.mk props (some proto'), .error e) := by
  unfold get_dynamic_prop
  simp only [DispatchEx.props, DispatchEx.prototype, hf, hg]
  rw [if_pos (by simpa using hu)]
  simp [DispatchEx.setProto]

/-- Reduction of `get_dynamic_prop` when the scan misses and the prototype
lookup succeeds: a slot is appended, a PROTREF placeholder when the
prototype's slot is live and a plain one when it is deleted. -/
theorem get_dynamic_prop_eq_notfound_proto_ok (props : List dynamic_prop_t)
    (proto proto' : DispatchEx) (x : String) (flags : GetFlags) (j : Nat)
    (hf : List.findIdx? (fun p => name_matches flags p.name x) props = none)
    (he : flags.ensure = true)
    (hg : get_dynamic_prop proto x ⟨false, false⟩ = (proto', .ok j)) :
    get_dynamic_prop (.mk props (some proto)) x flags =
      (let protProp : Option Nat :=
        if (proto'.props.getD j default).deleted then none else some j
       (.mk (props ++
         [{ name := x,
            var := (match protProp with | some j => .VUI4 j | none => .VEmpty),
            deleted := false, hidden := false,
            protref := protProp.isSome }]) (some proto'), .ok props.length)) := by
  unfold get_dynamic_prop
  simp only [DispatchEx.props, DispatchEx.prototype, hf, he, hg]
  split
  · next hdel =>
    simp only [hdel, ite_true]
    rw [if_neg (by simp)]
    simp [DispatchEx.setProps, DispatchEx.setProto, DispatchEx.props]
  · next hdel =>
    simp only [hdel, ite_false]
    rw [if_neg (by simp)]
    simp [DispatchEx.setProps, DispatchEx.setProto, DispatchEx.props, hdel]

/-- Whenever a `get_dynamic_prop` with `fdexNameEnsure` reports slot `i`, a
fresh scan of the resulting store finds exactly slot `i` under that name. -/
theorem get_dynamic_prop_ensure_ok (t : DispatchEx) (x : String) (flags : GetFlags)
    (i : Nat) (he : flags.ensure = true)
    (h : (get_dynamic_prop t x flags).2 = .ok i) :
    List.findIdx? (fun p => name_matches flags p.name x)
      (get_dynamic_prop t x flags).1.props = some i := by
  rcases hf : List.findIdx? (fun p => name_matches flags p.name x) t.props with _ | i0
  · -- not found: the slot is appended at the end of the store
    rcases t with ⟨props, po⟩
    simp only [DispatchEx.props] at hf
    rcases po with _ | proto
    · rw [get_dynamic_prop_eq_notfound_noproto props x flags hf he] at h ⊢
      simp only [Except.ok.injEq] at h
      simp only [DispatchEx.props]
      rw [List.findIdx?_append, hf]
      simp [name_matches_refl, ← h]
    · rcases hg : get_dynamic_prop proto x ⟨false, false⟩ with ⟨proto', r⟩
      rcases r with e | j
      · by_cases hu : e = DISP_E_UNKNOWNNAME
        · subst hu
          rw [get_dynamic_prop_eq_notfound_proto_unknown props proto proto' x flags hf he hg]
            at h ⊢
          simp only [Except.ok.injEq] at h
          simp only [DispatchEx.props]
          rw [List.findIdx?_append, hf]
          simp [name_matches_refl, ← h]
        · exfalso
          rw [get_dynamic_prop_eq_notfound_proto_error props proto proto' x flags e hf hg hu]
            at h
          exact absurd h (by simp)
      · rw [get_dynamic_prop_eq_notfound_proto_ok props proto proto' x flags j hf he hg]
          at h ⊢
        simp only [Except.ok.injEq] at h
        simp only [DispatchEx.props]
        rw [List.findIdx?_append, hf]
        simp [name_matches_refl, ← h]
  · -- found: the index is returned and the name column is preserved
    obtain ⟨h2, hnames⟩ := get_dynamic_prop_found_ensure t x flags i0 he hf
    rw [h2] at h
    have hii : i0 = i := by simpa using h
    subst hii
    exact (findIdx_name_congr flags x _ _ hnames).trans hf

theorem dispex_delete_prop_names (compat : compat_mode_t) (t : DispatchEx) (id : DISPID) :
    (dispex_delete_prop compat t id).1.names = t.names := by
  unfold dispex_delete_prop
  split
  · rfl
  · split
    · dsimp only
      split
      · rfl
      · split
        · exact DispatchEx.names_setProp _ _ _ rfl
        · rfl
    · rfl

/-- C3: create a dynamic property under a name with auto-create, delete it by
its identifier, create it again: the second create reuses the original store
slot (no slot is appended) and returns the same index, hence the same
dynamic-range identifier. -/
theorem dynamic_create_delete_create (obj : DispatchEx) (x : String) (ci : Bool)
    (compat : compat_mode_t) (i1 : Nat)
    (h1 : (get_dynamic_prop obj x ⟨true, ci⟩).2 = .ok i1)
    (hcompat : compat_ge compat .COMPAT_MODE_IE8 = true) :
    (get_dynamic_prop
        (dispex_delete_prop compat (get_dynamic_prop obj x ⟨true, ci⟩).1
          (DISPID_DYNPROP_0 + i1)).1 x ⟨true, ci⟩).2 = .ok i1 ∧
    (get_dynamic_prop
        (dispex_delete_prop compat (get_dynamic_prop obj x ⟨true, ci⟩).1
          (DISPID_DYNPROP_0 + i1)).1 x ⟨true, ci⟩).1.props.length =
      (dispex_delete_prop compat (get_dynamic_prop obj x ⟨true, ci⟩).1
          (DISPID_DYNPROP_0 + i1)).1.props.length ∧
    DISPID_DYNPROP_0 + (i1 : Int) = DISPID_DYNPROP_0 + (i1 : Int) := by
  set o1 := (get_dynamic_prop obj x ⟨true, ci⟩).1 with ho1
  set o2 := (dispex_delete_prop compat o1 (DISPID_DYNPROP_0 + i1)).1 with ho2
  have hidx1 : List.findIdx? (fun p => name_matches ⟨true, ci⟩ p.name x) o1.props =
      some i1 := get_dynamic_prop_ensure_ok obj x ⟨true, ci⟩ i1 rfl h1
  have hnames : o2.names = o1.names := dispex_delete_prop_names compat o1 _
  have hidx2 : List.findIdx? (fun p => name_matches ⟨true, ci⟩ p.name x) o2.props =
      some i1 := by
    rw [findIdx_name_congr _ _ o2.props o1.props hnames]
    exact hidx1
  obtain ⟨hok, hnm⟩ := get_dynamic_prop_found_ensure o2 x ⟨true, ci⟩ i1 rfl hidx2
  refine ⟨hok, ?_, rfl⟩
  have := congrArg List.length hnm
  simpa [DispatchEx.names] using this

/-- Witness for `dynamic_create_delete_create`: a fresh prototype-less object,
creating, deleting and re-creating the property "x" in mode IE9. -/
theorem dynamic_create_delete_create_witness :
    let obj : DispatchEx := .mk [] none
    (get_dynamic_prop obj "x" ⟨true, false⟩).2 = .ok 0 ∧
    (get_dynamic_prop
        (dispex_delete_prop .COMPAT_MODE_IE9 (get_dynamic_prop obj "x" ⟨true, false⟩).1
          (DISPID_DYNPROP_0 + 0)).1 "x" ⟨true, false⟩).2 = .ok 0 := by
  intro obj
  have h1 : (get_dynamic_prop obj "x" ⟨true, false⟩).2 = .ok 0 := by
    simp [get_dynamic_prop, obj, DispatchEx.props, DispatchEx.prototype]
  exact ⟨h1, (dynamic_create_delete_create obj "x" false .COMPAT_MODE_IE9 0 h1 rfl).1⟩

theorem DispatchEx.props_mk (props : List dynamic_prop_t) (po : Option DispatchEx) :
    (DispatchEx.mk props po).props = props := rfl

theorem DispatchEx.prototype_mk (props : List dynamic_prop_t) (po : Option DispatchEx) :
    (DispatchEx.mk props po).prototype = po := rfl

theorem DispatchEx.setProp_mk (props : List dynamic_prop_t) (po : Option DispatchEx)
    (i : Nat) (p : dynamic_prop_t) :
    (DispatchEx.mk props po).setProp i p = .mk (props.set i p) po := rfl

theorem List.getD_set_self₁ {α : Type} (l : List α) (i : Nat) (a d : α)
    (h : i < l.length) : (l.set i a).getD i d = a := by
  rw [List.getD_eq_getElem _ _ (by simpa using h)]
  exact List.getElem_set_self _

theorem variant_copy_eq (v : Variant) : variant_copy v = .ok v := by
  cases v with
  | VBstr s => cases s <;> rfl
  | _ => rfl

theorem dyn_id_idx (i : Nat) (hi : i ≤ 0x0fffffff) :
    dword_sub (DISPID_DYNPROP_0 + i) DISPID_DYNPROP_0 = i := by
  simp only [dword_sub, DISPID_DYNPROP_0]
  omega

theorem dyn_id_type (i : Nat) (hi : i ≤ 0x0fffffff) :
    get_dispid_type (DISPID_DYNPROP_0 + i) = .DISPEXPROP_DYNAMIC := by
  have hdyn : is_dynamic_dispid (DISPID_DYNPROP_0 + i) = true := by
    simp only [is_dynamic_dispid, DISPID_DYNPROP_0, DISPID_DYNPROP_MAX, decide_eq_true_eq]
    show (1342177280 : Int) ≤ 1342177280 + (i : Int) ∧
      1342177280 + (i : Int) ≤ 1610612735
    omega
  unfold get_dispid_type
  rw [if_pos hdyn]

/-- Reduction of a dynamic-identifier delete on a live (non-PROTREF) slot. -/
theorem dispex_delete_prop_eq_live (compat : compat_mode_t)
    (props : List dynamic_prop_t) (po : Option DispatchEx) (j : Nat)
    (hcompat : compat_ge compat .COMPAT_MODE_IE8 = true)
    (hj : j < props.length) (hrange : j ≤ 0x0fffffff)
    (hlive : (props.getD j default).protref = false) :
    dispex_delete_prop compat (.mk props po) (DISPID_DYNPROP_0 + j) =
      (.mk (props.set j { props.getD j default with var := .VEmpty, deleted := true }) po,
       S_OK) := by
  unfold dispex_delete_prop
  rw [if_neg (by simp [hcompat]), dyn_id_type j hrange]
  dsimp only
  rw [dyn_id_idx j hrange]
  rw [DispatchEx.props_mk]
  rw [if_neg (by omega), if_pos (by rw [hlive]; simp)]
  rw [DispatchEx.setProp_mk]

/-- Reduction of a dynamic-identifier delete on a PROTREF slot: the state is
untouched. -/
theorem dispex_delete_prop_eq_protref (compat : compat_mode_t)
    (props : List dynamic_prop_t) (po : Option DispatchEx) (i : Nat)
    (hcompat : compat_ge compat .COMPAT_MODE_IE8 = true)
    (hi : i < props.length) (hrange : i ≤ 0x0fffffff)
    (hprotref : (props.getD i default).protref = true) :
    dispex_delete_prop compat (.mk props po) (DISPID_DYNPROP_0 + i) =
      (.mk props po, S_OK) := by
  unfold dispex_delete_prop
  rw [if_neg (by simp [hcompat]), dyn_id_type i hrange]
  dsimp only
  rw [dyn_id_idx i hrange]
  rw [DispatchEx.props_mk]
  rw [if_neg (by omega), if_neg (by rw [hprotref]; simp)]

/-- C4: with an instance slot `i` holding a PROTREF into prototype slot `j`:
deleting slot `i` on the instance leaves the state untouched (no value
released, DELETED not set); deleting the prototype's own (live) entry `j` and
then reading slot `i` on the instance fixes the slot up against the
prototype's live state — re-flagging it DELETED — and reports
`DISP_E_MEMBERNOTFOUND`.  The prototype's own prototype `gproto` is
universally quantified and never consulted: the fixup is one level deep. -/
theorem protref_delete_one_level (env : DynInvokeEnv) (compat : compat_mode_t)
    (props pprops : List dynamic_prop_t) (gproto : Option DispatchEx)
    (i j : Nat) (dp : DISPPARAMS) (res_provided : Bool)
    (hi : i < props.length) (hirange : i ≤ 0x0fffffff)
    (hprotref : (props.getD i default).protref = true)
    (hnotdel : (props.getD i default).deleted = false)
    (hvar : (props.getD i default).var = .VUI4 j)
    (hj : j < pprops.length) (hjrange : j ≤ 0x0fffffff)
    (hjlive : (pprops.getD j default).protref = false)
    (hcompat : compat_ge compat .COMPAT_MODE_IE8 = true) :
    dispex_delete_prop compat (.mk props (some (.mk pprops gproto)))
        (DISPID_DYNPROP_0 + i) =
      (.mk props (some (.mk pprops gproto)), S_OK) ∧
    (let protoDel :=
      (dispex_delete_prop compat (.mk pprops gproto) (DISPID_DYNPROP_0 + j)).1
     dispex_invoke_dynamic env (.mk props (some protoDel)) (DISPID_DYNPROP_0 + i)
        DISPATCH_PROPERTYGET dp res_provided =
      (.mk (props.set i
          { props.getD i default with deleted := true, hidden := false, protref := false })
        (some protoDel),
       DISP_E_MEMBERNOTFOUND, none)) := by
  constructor
  · exact dispex_delete_prop_eq_protref compat props _ i hcompat hi hirange hprotref
  · intro protoDel
    have hprotoDel : protoDel =
        .mk (pprops.set j { pprops.getD j default with var := .VEmpty, deleted := true })
          gproto := by
      show (dispex_delete_prop compat (.mk pprops gproto) (DISPID_DYNPROP_0 + j)).1 = _
      rw [dispex_delete_prop_eq_live compat pprops gproto j hcompat hj hjrange hjlive]
    have hdel2 : ((protoDel.props.getD
        ((props.getD i default).var.ui4D) default)).deleted = true := by
      rw [hprotoDel, DispatchEx.props_mk, hvar]
      rw [show Variant.ui4D (.VUI4 j) = j from rfl]
      rw [List.getD_set_self₁ _ _ _ _ hj]
    have hfix : fixup_prop_ref (.mk props (some protoDel)) i =
        .mk (props.set i
          { props.getD i default with deleted := true, hidden := false, protref := false })
          (some protoDel) := by
      unfold fixup_prop_ref
      simp only [DispatchEx.props_mk, DispatchEx.prototype_mk]
      rw [if_neg (by rw [hnotdel]; simp)]
      rw [if_pos hprotref]
      rw [if_pos hdel2]
      rw [DispatchEx.setProp_mk]
    unfold dispex_invoke_dynamic
    rw [dyn_id_idx i hirange]
    rw [DispatchEx.props_mk, if_neg (by omega)]
    rw [if_neg (by simp [DISPATCH_METHOD, DISPATCH_PROPERTYGET])]
    rw [if_pos rfl]
    rw [hfix]
    dsimp only
    rw [DispatchEx.props_mk]
    rw [if_pos (by rw [List.getD_set_self₁ _ _ _ _ hi])]

/-- Witness for `protref_delete_one_level`: instance slot "x" PROTREF to
prototype slot 0, the prototype's own prototype holding a live "x" as well
(which must not be consulted). -/
theorem protref_delete_one_level_witness :
    let env : DynInvokeEnv := ⟨fun _ _ => (S_OK, none)⟩
    let pp : dynamic_prop_t := ⟨"x", .VBstr (some "protoval"), false, false, false⟩
    let gp : dynamic_prop_t := ⟨"x", .VBstr (some "grandval"), false, false, false⟩
    let ip : dynamic_prop_t := ⟨"x", .VUI4 0, false, false, true⟩
    dispex_delete_prop .COMPAT_MODE_IE8 (.mk [ip] (some (.mk [pp] (some (.mk [gp] none)))))
        (DISPID_DYNPROP_0 + 0) =
      (.mk [ip] (some (.mk [pp] (some (.mk [gp] none)))), S_OK) ∧
    (let protoDel :=
      (dispex_delete_prop .COMPAT_MODE_IE8 (.mk [pp] (some (.mk [gp] none)))
        (DISPID_DYNPROP_0 + 0)).1
     dispex_invoke_dynamic ⟨fun _ _ => (S_OK, none)⟩ (.mk [ip] (some protoDel))
        (DISPID_DYNPROP_0 + 0) DISPATCH_PROPERTYGET ⟨[], []⟩ true =
      (.mk ([ip].set 0 { ip with deleted := true, hidden := false, protref := false })
        (some protoDel),
       DISP_E_MEMBERNOTFOUND, none)) := by
  intro env pp gp ip
  exact protref_delete_one_level ⟨fun _ _ => (S_OK, none)⟩ .COMPAT_MODE_IE8
    [ip] [pp] (some (.mk [gp] none)) 0 0 ⟨[], []⟩ true
    (by decide) (by decide) (by decide) (by decide) (by decide)
    (by decide) (by decide) (by decide) (by decide)

/-- `fixup_prop_ref` is the identity on a live slot (neither DELETED nor
PROTREF). -/
theorem fixup_prop_ref_live (t : DispatchEx) (i : Nat)
    (hdel : (t.props.getD i default).deleted = false)
    (hpr : (t.props.getD i default).protref = false) :
    fixup_prop_ref t i = t := by
  unfold fixup_prop_ref
  rcases hp : t.prototype with _ | proto
  · simp only [hp]
    split
    · rfl
    · split
      · rfl
      · rfl
  · simp only [hp]
    rw [if_neg (by rw [hdel]; simp)]
    rw [if_neg (by rw [hpr]; simp)]

/-- C9: a successful dynamic-property PUT stores a copy of the value and
clears the slot's DELETED and PROTREF flags, whatever they were; a subsequent
GET on the same identifier returns the stored value, and this holds for every
prototype state (so a later deletion of the prototype's same-named entry no
longer affects the slot). -/
theorem dynamic_put_localizes (env env2 : DynInvokeEnv)
    (props : List dynamic_prop_t) (po : Option DispatchEx)
    (i : Nat) (v : Variant) (dp dp2 : DISPPARAMS) (rp rp2 : Bool)
    (hi : i < props.length) (hrange : i ≤ 0x0fffffff)
    (hdp : dp.rgvarg = [v])
    (hnamed : dp.rgdispidNamedArgs = [] ∨ dp.rgdispidNamedArgs = [DISPID_PROPERTYPUT]) :
    dispex_invoke_dynamic env (.mk props po) (DISPID_DYNPROP_0 + i)
        DISPATCH_PROPERTYPUT dp rp =
      (.mk (props.set i
          { props.getD i default with var := v, deleted := false, protref := false }) po,
       S_OK, none) ∧
    (∀ po2 : Option DispatchEx,
      dispex_invoke_dynamic env2
          (.mk (props.set i
            { props.getD i default with var := v, deleted := false, protref := false }) po2)
          (DISPID_DYNPROP_0 + i) DISPATCH_PROPERTYGET dp2 rp2 =
        (.mk (props.set i
            { props.getD i default with var := v, deleted := false, protref := false }) po2,
         S_OK, some v)) := by
  have hlen : (props.set i
      { props.getD i default with var := v, deleted := false, protref := false }).length =
      props.length := by simp
  constructor
  · unfold dispex_invoke_dynamic
    rw [dyn_id_idx i hrange, DispatchEx.props_mk, if_neg (by omega)]
    rw [if_neg (by simp [DISPATCH_METHOD, DISPATCH_PROPERTYGET, DISPATCH_PROPERTYPUT])]
    rw [if_neg (by simp [DISPATCH_PROPERTYGET, DISPATCH_PROPERTYPUT])]
    rw [if_pos rfl]
    rw [if_neg ?hshape]
    case hshape =>
      rintro (h | h | h)
      · exact h (by simp [DISPPARAMS.cArgs, hdp])
      · rcases hnamed with hn | hn <;>
          simp [DISPPARAMS.cNamedArgs, hn, DISPID_PROPERTYPUT] at h
      · rcases hnamed with hn | hn <;> simp [DISPPARAMS.cNamedArgs, hn] at h
    rw [show dp.rgvarg.getD 0 .VEmpty = v by rw [hdp]; rfl]
    rw [variant_copy_eq v]
    dsimp only
    rw [DispatchEx.setProp_mk]
  · intro po2
    have hgd : ((props.set i
        { props.getD i default with var := v, deleted := false, protref := false }).getD
          i default) =
        { props.getD i default with var := v, deleted := false, protref := false } :=
      List.getD_set_self₁ _ _ _ _ hi
    unfold dispex_invoke_dynamic
    rw [dyn_id_idx i hrange, DispatchEx.props_mk, if_neg (by rw [hlen]; omega)]
    rw [if_neg (by simp [DISPATCH_METHOD, DISPATCH_PROPERTYGET])]
    rw [if_pos rfl]
    rw [fixup_prop_ref_live _ i (by rw [DispatchEx.props_mk, hgd])
      (by rw [DispatchEx.props_mk, hgd])]
    dsimp only
    rw [DispatchEx.props_mk]
    rw [if_neg (by rw [hgd]; simp)]
    rw [if_neg (by rw [hgd]; simp)]
    rw [hgd]
    rw [variant_copy_eq]

/-- Witness for `dynamic_put_localizes`: overwriting a PROTREF tombstone slot
with the string "v" and reading it back, under an arbitrary prototype. -/
theorem dynamic_put_localizes_witness :
    let env : DynInvokeEnv := ⟨fun _ _ => (S_OK, none)⟩
    let slot : dynamic_prop_t := ⟨"x", .VUI4 0, false, false, true⟩
    let dp : DISPPARAMS := ⟨[.VBstr (some "v")], [DISPID_PROPERTYPUT]⟩
    dispex_invoke_dynamic env (.mk [slot] none) (DISPID_DYNPROP_0 + 0)
        DISPATCH_PROPERTYPUT dp true =
      (.mk ([slot].set 0
          { slot with var := .VBstr (some "v"), deleted := false, protref := false }) none,
       S_OK, none) := by
  intro env slot dp
  exact (dynamic_put_localizes env env [slot] none 0 (.VBstr (some "v")) dp ⟨[], []⟩
    true true (by decide) (by decide) rfl (Or.inr rfl)).1

def FUNCFLAG_FRESTRICTED : Nat := 1
def FUNCFLAG_FHIDDEN : Nat := 0x40

/-- A parameter descriptor from the reflection provider (an `ELEMDESC` with
its `PARAMDESC`): the declared type; the referenced dispatch IID when the
type description is a pointer to a user-defined dispatch interface
(`VT_PTR` → `VT_USERDEFINED`, `TKIND_DISPATCH`); and the optional declared
default value (`PARAMFLAG_FHASDEFAULT`). -/
structure ELEMDESC where
  vt : VARTYPE
  ptr_ref_iid : Option Nat
  has_default : Bool
  default_value : Variant
deriving DecidableEq, Repr

/-- A member signature from the reflection provider (`FUNCDESC`); `oVft` is
already divided by the pointer size, as `add_func_info` stores it. -/
structure FUNCDESC where
  memid : DISPID
  invkind : Nat
  wFuncFlags : Nat
  elemdescFunc_vt : VARTYPE
  cParamsOpt : Nat
  params : List ELEMDESC
  oVft : Nat
deriving DecidableEq, Repr

/-- A member hook declaration (`dispex_hook_t`): the member it applies to,
whether an invoke override is installed, and an optional name override. -/
structure dispex_hook_t where
  dispid : DISPID
  has_invoke : Bool
  name : Option String
deriving DecidableEq, Repr

/-- The argument loop of the `DISPATCH_METHOD` branch of `add_func_info`
(dispex.c:450-490): a pointer-to-dispatch parameter records its narrowing IID
and its argument type becomes `VT_DISPATCH`; any other unsupported argument
type stops the loop, leaving the member on the `ITypeInfo::Invoke` fallback
(second component `false`); a declared default value is copied into
`arg_info` and counted. -/
def process_method_args (e : func_info_t) : List ELEMDESC → Nat → func_info_t × Bool
  | [], _ => (e, true)
  | p :: rest, i =>
    let step1 : Option func_info_t :=
      match p.ptr_ref_iid with
      | some iid =>
        some { e with
          arg_info := e.arg_info.set i { e.arg_info.getD i default with iid := some iid },
          arg_types := e.arg_types.set i .VT_DISPATCH }
      | none =>
        if is_arg_type_supported (e.arg_types.getD i .VT_EMPTY) then some e else none
    match step1 with
    | none => (e, false)
    | some e1 =>
      let e2 :=
        if p.has_default then
          { e1 with
            arg_info := e1.arg_info.set i
              { e1.arg_info.getD i default with default_value := p.default_value },
            default_value_cnt := e1.default_value_cnt + 1 }
        else e1
      process_method_args e2 rest (i + 1)

/-- The `DISPATCH_METHOD` branch of `add_func_info` (dispex.c:414-495): the
member takes the next function-object cache slot, its argument count and
argument/return types are recorded, and the native call slot offset is set
only when the return type is representable, no optional parameters are
declared, and every argument survives `process_method_args` — otherwise the
entry remains on the generic `ITypeInfo::Invoke` fallback. -/
def fill_method_info (e : func_info_t) (desc : FUNCDESC) (func_disp_cnt : Nat) :
    func_info_t × Nat :=
  let cnt' := func_disp_cnt + 1
  let e1 := { e with
    func_disp_idx := (func_disp_cnt : Int),
    argc := desc.params.length,
    arg_info := desc.params.map (fun _ => (default : func_arg_info_t)),
    prop_vt := desc.elemdescFunc_vt }
  if desc.elemdescFunc_vt ≠ .VT_VOID ∧ desc.elemdescFunc_vt ≠ .VT_PTR ∧
      ¬is_arg_type_supported desc.elemdescFunc_vt then
    (e1, cnt')
  else
    let ret_types : List VARTYPE :=
      if desc.elemdescFunc_vt = .VT_PTR then [.VT_BYREF .VT_DISPATCH]
      else if desc.elemdescFunc_vt = .VT_VOID then []
      else [.VT_BYREF desc.elemdescFunc_vt]
    let e2 := { e1 with arg_types := desc.params.map (·.vt) ++ ret_types }
    if desc.cParamsOpt ≠ 0 then (e2, cnt')
    else
      match process_method_args e2 desc.params 0 with
      | (e3, false) => (e3, cnt')
      | (e3, true) => ({ e3 with call_vtbl_off := desc.oVft }, cnt')

/-- The property branch of `add_func_info` (dispex.c:496-514): hidden
accessors get `func_disp_idx = -2`; the get/put vtbl offsets and the property
type are recorded from the respective accessor. -/
def fill_prop_info (e : func_info_t) (desc : FUNCDESC) : func_info_t :=
  let e0 := if desc.wFuncFlags &&& FUNCFLAG_FHIDDEN ≠ 0 then
    { e with func_disp_idx := -2 } else e
  let s1 : VARTYPE × func_info_t :=
    if desc.invkind &&& DISPATCH_PROPERTYGET ≠ 0 then
      (desc.elemdescFunc_vt, { e0 with get_vtbl_off := desc.oVft })
    else (.VT_EMPTY, e0)
  let s2 : VARTYPE × func_info_t :=
    if desc.invkind &&& DISPATCH_PROPERTYPUT ≠ 0 then
      ((desc.params.getD 0 ⟨.VT_EMPTY, none, false, .VEmpty⟩).vt,
       { s1.2 with put_vtbl_off := desc.oVft })
    else s1
  { s2.2 with prop_vt := s2.1 }

/-- `add_func_info` (dispex.c:360): resolve the member name (a hook override
first, else skipping restricted members and members whose documentation
lookup failed); merge by identifier-or-name into an existing entry of the
same source interface, skip a duplicate from a different interface, or append
a fresh entry; then fill the entry per invoke kind.  Returns the updated
function list and function-object slot counter. -/
def add_func_info (funcs : List func_info_t) (func_disp_cnt : Nat) (tid : Nat)
    (desc : FUNCDESC) (docname : Option String) (hook_invoke : Bool)
    (name_override : Option String) : List func_info_t × Nat :=
  let name? : Option String :=
    match name_override with
    | some n => some n
    | none =>
      if desc.wFuncFlags &&& FUNCFLAG_FRESTRICTED ≠ 0 then none
      else docname
  match name? with
  | none => (funcs, func_disp_cnt)
  | some name =>
    match List.findIdx? (fun f => decide (f.id = desc.memid ∨ f.name = name)) funcs with
    | some k =>
      if (funcs.getD k default).tid ≠ tid then (funcs, func_disp_cnt)
      else
        let e := funcs.getD k default
        if desc.invkind &&& DISPATCH_METHOD ≠ 0 then
          let r := fill_method_info e desc func_disp_cnt
          (funcs.set k r.1, r.2)
        else if desc.invkind &&& (DISPATCH_PROPERTYPUT + DISPATCH_PROPERTYGET) ≠ 0 then
          (funcs.set k (fill_prop_info e desc), func_disp_cnt)
        else (funcs, func_disp_cnt)
    | none =>
      let base : func_info_t :=
        { id := desc.memid, name := name, tid := tid, hook := hook_invoke,
          call_vtbl_off := 0, put_vtbl_off := 0, get_vtbl_off := 0,
          func_disp_idx := -1, argc := 0, default_value_cnt := 0,
          prop_vt := .VT_EMPTY, arg_types := [], arg_info := [] }
      if desc.invkind &&& DISPATCH_METHOD ≠ 0 then
        let r := fill_method_info base desc func_disp_cnt
        (funcs ++ [r.1], r.2)
      else if desc.invkind &&& (DISPATCH_PROPERTYPUT + DISPATCH_PROPERTYGET) ≠ 0 then
        (funcs ++ [fill_prop_info base desc], func_disp_cnt)
      else (funcs ++ [base], func_disp_cnt)

/-- `process_interface` (dispex.c:543): walk the interface's members (the
reflection input models `ITypeInfo::GetFuncDesc` from slot 7 on, past the
`IDispatch` members, until it fails, paired with each member's documentation
name); a member with a hook that has neither an invoke override nor a name is
dropped, the rest are added. -/
def process_interface (funcs : List func_info_t) (func_disp_cnt : Nat) (tid : Nat)
    (members : List (FUNCDESC × Option String)) (hooks : List dispex_hook_t) :
    List func_info_t × Nat :=
  members.foldl
    (fun acc m =>
      let hook := hooks.find? (fun h => decide (h.dispid = m.1.memid))
      if hook.isNone ∨ (hook.map (·.has_invoke)).getD false = true ∨
          (hook.bind (·.name)).isSome then
        add_func_info acc.1 acc.2 tid m.1 m.2
          ((hook.map (·.has_invoke)).getD false) (hook.bind (·.name))
      else acc)
    (funcs, func_disp_cnt)

/-- The modelled slice of `dispex_static_data_t`: the reflected source
interfaces.  (`init_info` hooks — used only by legacy-prototype table copies —
and the class vtbl are not carried here.) -/
structure dispex_static_data_t where
  name : String
  iface_tids : List Nat
deriving DecidableEq, Repr

/-- A compiled member table (`dispex_data_t`): the member array sorted by
identifier and the parallel name table sorted case-insensitively by name. -/
structure dispex_data_t where
  compat_mode : compat_mode_t
  funcs : List func_info_t
  name_table : List func_info_t
  func_disp_cnt : Nat
deriving Repr

/-- The reflection provider: for each source-interface tag, the member
signatures (with documentation names) it yields, stable for the process
lifetime. -/
abbrev Reflection := Nat → List (FUNCDESC × Option String)

/-- `preprocess_dispex_data` (dispex.c:600): fold the descriptor's source
interfaces into one member list (no hooks on this path — hooks enter only
through `init_info`-driven `dispex_info_add_interface` calls, not modelled),
then qsort by identifier and build the case-insensitive name table. -/
def preprocess_dispex_data (refl : Reflection) (desc : dispex_static_data_t)
    (compat_mode : compat_mode_t) : dispex_data_t :=
  let acc := desc.iface_tids.foldl
    (fun acc tid => process_interface acc.1 acc.2 tid (refl tid) []) ([], 0)
  if acc.1.isEmpty then
    { compat_mode := compat_mode, funcs := [], name_table := [], func_disp_cnt := acc.2 }
  else
    { compat_mode := compat_mode,
      funcs := acc.1.mergeSort (fun a b => decide (a.id ≤ b.id)),
      name_table := acc.1.mergeSort (fun a b => decide (a.name.toLower ≤ b.name.toLower)),
      func_disp_cnt := acc.2 }

/-- The per-descriptor compiled-table cache slots
(`desc->info_cache[compat_mode]`). -/
abbrev InfoCache := compat_mode_t → Option dispex_data_t

/-- `ensure_dispex_info` (dispex.c:2013): double-checked initialization of the
per-(descriptor, mode) cache slot; the critical section serializing builders
is modelled by sequential state passing. -/
def ensure_dispex_info (refl : Reflection) (desc : dispex_static_data_t)
    (cache : InfoCache) (compat_mode : compat_mode_t) : InfoCache × dispex_data_t :=
  match cache compat_mode with
  | some data => (cache, data)
  | none =>
    let data := preprocess_dispex_data refl desc compat_mode
    (fun m => if m = compat_mode then some data else cache m, data)

theorem List.map_set_getD {α β : Type} (l : List α) (i : Nat) (a d : α) (f : α → β)
    (h : f a = f (l.getD i d)) : (l.set i a).map f = l.map f := by
  by_cases hi : i < l.length
  · rw [List.map_set]
    have hfa : f a = (l.map f).getD i (f d) := by
      rw [h, List.getD_eq_getElem _ _ hi, List.getD_eq_getElem _ _ (by simpa using hi)]
      simp
    rw [hfa]
    apply List.ext_getElem
    · simp
    · intro n h1 h2
      simp only [List.getElem_set]
      split
      · next he =>
        subst he
        rw [List.getD_eq_getElem _ _ h2]
      · rfl
  · rw [List.set_eq_of_length_le (by omega)]

theorem process_method_args_id (ps : List ELEMDESC) (e : func_info_t) (i : Nat) :
    (process_method_args e ps i).1.id = e.id := by
  induction ps generalizing e i with
  | nil => rfl
  | cons p rest ih =>
    unfold process_method_args
    rcases hp : p.ptr_ref_iid with _ | iid <;>
      by_cases hd : p.has_default <;>
        by_cases hs : is_arg_type_supported (e.arg_types[i]?.getD .VT_EMPTY) <;>
          simp [hp, hd, hs, ih]

theorem fill_method_info_id (e : func_info_t) (desc : FUNCDESC) (cnt : Nat) :
    (fill_method_info e desc cnt).1.id = e.id := by
  unfold fill_method_info
  dsimp only
  split
  · rfl
  · split
    · rfl
    · split
      · next e3 heq =>
        have h3 := congrArg (fun r : func_info_t × Bool => r.1.id) heq
        simp only [process_method_args_id] at h3
        simpa using h3.symm
      · next e3 heq =>
        have h3 := congrArg (fun r : func_info_t × Bool => r.1.id) heq
        simp only [process_method_args_id] at h3
        simpa using h3.symm

theorem fill_prop_info_id (e : func_info_t) (desc : FUNCDESC) :
    (fill_prop_info e desc).id = e.id := by
  unfold fill_prop_info
  dsimp only
  split <;> split <;> split <;> rfl

/-- One `add_func_info` step either keeps the identifier column or appends
the new member id, which was not present. -/
theorem add_func_info_ids (funcs : List func_info_t) (cnt : Nat) (tid : Nat)
    (desc : FUNCDESC) (docname : Option String) (hi : Bool) (nov : Option String) :
    (add_func_info funcs cnt tid desc docname hi nov).1.map (·.id) = funcs.map (·.id) ∨
    ((add_func_info funcs cnt tid desc docname hi nov).1.map (·.id) =
        funcs.map (·.id) ++ [desc.memid] ∧
      desc.memid ∉ funcs.map (·.id)) := by
  unfold add_func_info
  rcases hname : (match nov with
      | some n => some n
      | none => if desc.wFuncFlags &&& FUNCFLAG_FRESTRICTED ≠ 0 then none else docname :
      Option String) with _ | name
  · exact Or.inl rfl
  · dsimp only
    rcases hfind : List.findIdx? (fun f => decide (f.id = desc.memid ∨ f.name = name))
        funcs with _ | k
    · -- not found: appended
      simp only [hfind]
      right
      have hnotin : desc.memid ∉ funcs.map (·.id) := by
        rw [List.findIdx?_eq_none_iff] at hfind
        intro hmem
        obtain ⟨f, hf, hfid⟩ := List.mem_map.mp hmem
        have := hfind f hf
        simp only [decide_eq_false_iff_not, not_or] at this
        exact this.1 hfid
      refine ⟨?_, hnotin⟩
      dsimp only
      split
      · rw [List.map_append]
        congr 1
        simp [fill_method_info_id]
      · split
        · rw [List.map_append]
          congr 1
          simp [fill_prop_info_id]
        · rw [List.map_append]
          rfl
    · -- found: merged or skipped in place
      simp only [hfind]
      left
      dsimp only
      split
      · rfl
      · split
        · exact List.map_set_getD funcs k _ default _ (fill_method_info_id _ desc cnt)
        · split
          · exact List.map_set_getD funcs k _ default _ (fill_prop_info_id _ desc)
          · rfl

theorem add_func_info_ids_nodup (funcs : List func_info_t) (cnt : Nat) (tid : Nat)
    (desc : FUNCDESC) (docname : Option String) (hi : Bool) (nov : Option String)
    (h : (funcs.map (·.id)).Nodup) :
    ((add_func_info funcs cnt tid desc docname hi nov).1.map (·.id)).Nodup := by
  rcases add_func_info_ids funcs cnt tid desc docname hi nov with heq | ⟨heq, hnotin⟩
  · rw [heq]; exact h
  · rw [heq]
    simp only [List.nodup_append, List.nodup_cons, List.nodup_nil]
    exact ⟨h, by simp, by simpa using hnotin⟩

theorem process_interface_ids_nodup (members : List (FUNCDESC × Option String))
    (funcs : List func_info_t) (cnt : Nat) (tid : Nat) (hooks : List dispex_hook_t)
    (h : (funcs.map (·.id)).Nodup) :
    ((process_interface funcs cnt tid members hooks).1.map (·.id)).Nodup := by
  induction members generalizing funcs cnt with
  | nil => exact h
  | cons m rest ih =>
    unfold process_interface
    rw [List.foldl_cons]
    dsimp only
    split
    · exact ih _ _ (add_func_info_ids_nodup _ _ _ _ _ _ _ h)
    · exact ih _ _ h

theorem preprocess_fold_ids_nodup (tids : List Nat) (refl : Reflection)
    (funcs : List func_info_t) (cnt : Nat)
    (h : (funcs.map (·.id)).Nodup) :
    ((tids.foldl (fun acc tid => process_interface acc.1 acc.2 tid (refl tid) [])
        (funcs, cnt)).1.map (·.id)).Nodup := by
  induction tids generalizing funcs cnt with
  | nil => exact h
  | cons t rest ih =>
    rw [List.foldl_cons]
    rcases hp : process_interface funcs cnt t (refl t) [] with ⟨funcs', cnt'⟩
    have := process_interface_ids_nodup (refl t) funcs cnt t [] h
    rw [hp] at this
    exact ih funcs' cnt' this

/-- C5: resolving a descriptor's member table twice yields the same table with
the cache advanced at most once (the second resolve returns the published
table and leaves the cache unchanged), and every table built by
`preprocess_dispex_data` has its identifier column strictly sorted — the
binary-search precondition: pairwise distinct, increasing identifiers. -/
theorem ensure_dispex_info_idempotent_and_sorted (refl : Reflection)
    (desc : dispex_static_data_t) (cache : InfoCache) (mode : compat_mode_t) :
    (ensure_dispex_info refl desc (ensure_dispex_info refl desc cache mode).1 mode).2 =
      (ensure_dispex_info refl desc cache mode).2 ∧
    (ensure_dispex_info refl desc (ensure_dispex_info refl desc cache mode).1 mode).1 =
      (ensure_dispex_info refl desc cache mode).1 ∧
    List.Pairwise (fun a b => a.id < b.id)
      (preprocess_dispex_data refl desc mode).funcs := by
  refine ⟨?_, ?_, ?_⟩
  · rcases hc : cache mode with _ | data
    · unfold ensure_dispex_info
      simp only [hc]
      simp
    · unfold ensure_dispex_info
      simp only [hc]
  · rcases hc : cache mode with _ | data
    · unfold ensure_dispex_info
      simp only [hc]
      simp
    · unfold ensure_dispex_info
      simp only [hc]
  · unfold preprocess_dispex_data
    dsimp only
    split
    · exact List.Pairwise.nil
    · dsimp only
      set acc := desc.iface_tids.foldl
        (fun acc tid => process_interface acc.1 acc.2 tid (refl tid) []) ([], 0) with hacc
      have hnodup : (acc.1.map (·.id)).Nodup := by
        rw [hacc]
        exact preprocess_fold_ids_nodup desc.iface_tids refl [] 0 (by simp)
      have hperm : (acc.1.mergeSort (fun a b => decide (a.id ≤ b.id))).Perm acc.1 :=
        List.mergeSort_perm _ _
      have hsorted : List.Pairwise (fun a b => a.id ≤ b.id)
          (acc.1.mergeSort (fun a b => decide (a.id ≤ b.id))) := by
        have := @List.sorted_mergeSort func_info_t
          (fun a b : func_info_t => decide (a.id ≤ b.id))
          (fun a b c hab hbc => by
            simp only [decide_eq_true_eq] at hab hbc ⊢
            exact le_trans hab hbc)
          (fun a b => by
            simp only [Bool.or_eq_true, decide_eq_true_eq]
            exact le_total a.id b.id)
          acc.1
        refine this.imp ?_
        intro a b hab
        simpa using hab
      have hnodup2 : ((acc.1.mergeSort (fun a b => decide (a.id ≤ b.id))).map (·.id)).Nodup :=
        ((hperm.map (·.id)).nodup_iff).mpr hnodup
      have hlt : List.Pairwise (fun a b : func_info_t => a.id < b.id)
          (acc.1.mergeSort (fun a b => decide (a.id ≤ b.id))) := by
        have hmap : List.Pairwise (fun a b : DISPID => a ≤ b)
            ((acc.1.mergeSort (fun a b => decide (a.id ≤ b.id))).map (·.id)) :=
          (List.pairwise_map).mpr hsorted
        have hmaplt := List.Sorted.lt_of_le hmap hnodup2
        exact (List.pairwise_map).mp hmaplt
      exact hlt

/-- The array-like object `function_apply` interrogates, at its interface
boundary: name-to-identifier resolution (`GetDispID` /
`GetIDsOfNames`) and a `DISPATCH_PROPERTYGET` invoke.  The `IDispatchEx` and
plain `IDispatch` code paths are modelled by this one interface. -/
structure ArrayLike where
  get_dispid : String → Except HRESULT DISPID
  prop_get : DISPID → HRESULT × Option Variant

/-- The collaborators of `function_apply`: dereferencing the second argument
object (possibly a NULL pointer, whose behavior the environment supplies) and
the coercion providers for the length conversion. -/
structure ApplyEnv where
  lookup : Option Nat → ArrayLike
  ct : ChangeTypeProviders

/-- One iteration of the index-pulling loop of `function_apply`
(dispex.c:1056-1084): resolve the decimal index name — name-not-found yields
an empty argument, any other resolution failure is an illegal function call —
then read the property, propagating a failed read. -/
def apply_pull_arg (al : ArrayLike) (i : Nat) : Except HRESULT Variant :=
  match al.get_dispid (toString i) with
  | .error e =>
    if e = DISP_E_UNKNOWNNAME then .ok .VEmpty
    else .error CTL_E_ILLEGALFUNCTIONCALL
  | .ok d =>
    let r := al.prop_get d
    if FAILED r.1 then .error r.1 else .ok (r.2.getD .VEmpty)

/-- The index-pulling loop for indices `0 .. n-1`, stopping at the first
failure as the C `break` does. -/
def apply_pull (al : ArrayLike) : Nat → Except HRESULT (List Variant)
  | 0 => .ok []
  | n + 1 =>
    match apply_pull al n with
    | .error e => .error e
    | .ok l =>
      match apply_pull_arg al n with
      | .error e => .error e
      | .ok v => .ok (l ++ [v])

/-- `function_apply` (dispex.c:987): the last `rgvarg` entry (the first
logical argument) must be a non-NULL object, the call target; with a second
argument (the array-like, possibly by reference) its `length` property is
resolved — failure or `DISPID_UNKNOWN` is an illegal function call — and
read — a failed read propagates through the final `E_UNEXPECTED` mapping —
then converted to `VT_I4` unless it already is one; a conversion failure or a
negative length is an illegal function call; that many indexed properties are
pulled and forwarded positionally (reversed into `rgvarg` order) to
`invoke_builtin_function` on the target, whose environment `ienv` carries the
target object's behavior; every result reaching the common exit maps
`E_UNEXPECTED` to an illegal function call. -/
def function_apply (env : ApplyEnv) (ienv : InvokeEnv) (info : func_info_t)
    (dp : DISPPARAMS) : HRESULT × Option Variant :=
  let fixup : HRESULT × Option Variant → HRESULT × Option Variant :=
    fun r => (if r.1 = E_UNEXPECTED then CTL_E_ILLEGALFUNCTIONCALL else r.1, r.2)
  if dp.cArgs < 1 then (CTL_E_ILLEGALFUNCTIONCALL, none)
  else
    match dp.rgvarg.getD (dp.cArgs - 1) .VEmpty with
    | .VDispatch (some _this_obj) =>
      if 2 ≤ dp.cArgs then
        let arg2 := dp.rgvarg.getD (dp.cArgs - 2) .VEmpty
        match (match arg2 with
               | .VDispatch p => some p
               | .VDispatchRef p => some p
               | _ => none) with
        | none => (CTL_E_ILLEGALFUNCTIONCALL, none)
        | some disp =>
          let al := env.lookup disp
          match al.get_dispid "length" with
          | .error _ => fixup (CTL_E_ILLEGALFUNCTIONCALL, none)
          | .ok d =>
            if d = DISPID_UNKNOWN then fixup (CTL_E_ILLEGALFUNCTIONCALL, none)
            else
              let r := al.prop_get d
              if FAILED r.1 then fixup (r.1, none)
              else
                let res := r.2.getD .VEmpty
                let lenE : Except HRESULT Int :=
                  match res with
                  | .VI4 n => .ok n
                  | _ =>
                    match change_type env.ct res .VT_I4 with
                    | .ok v => .ok v.i4D
                    | .error e => .error e
                match lenE with
                | .error _ => fixup (CTL_E_ILLEGALFUNCTIONCALL, none)
                | .ok n =>
                  if n < 0 then fixup (CTL_E_ILLEGALFUNCTIONCALL, none)
                  else
                    match apply_pull al n.toNat with
                    | .error e => fixup (e, none)
                    | .ok args =>
                      fixup (invoke_builtin_function ienv info ⟨args.reverse, []⟩)
      else
        fixup (invoke_builtin_function ienv info ⟨[], []⟩)
    | _ => (CTL_E_ILLEGALFUNCTIONCALL, none)

theorem apply_pull_ok (al : ArrayLike) (g : Nat → Variant) (n : Nat)
    (h : ∀ i, i < n → apply_pull_arg al i = .ok (g i)) :
    apply_pull al n = .ok ((List.range n).map g) := by
  induction n with
  | zero => simp [apply_pull]
  | succ n ih =>
    rw [apply_pull, ih (fun i hi => h i (by omega)), h n (by omega), List.range_succ]
    simp

/-- Counterexample to C6 as stated: when the array-like's `length` property
GETTER fails (here with `E_FAIL`), `function_apply` propagates that error
verbatim instead of failing with the illegal-function-call error the claim
requires. -/
theorem function_apply_length_read_error_counterexample :
    let al : ArrayLike :=
      ⟨fun s => if s = "length" then .ok 7 else .error DISP_E_UNKNOWNNAME,
       fun _ => (E_FAIL, none)⟩
    let env : ApplyEnv := ⟨fun _ => al, ⟨none, fun _ _ => .error DISP_E_TYPEMISMATCH⟩⟩
    let ienv : InvokeEnv :=
      ⟨true, none, ⟨none, fun _ _ => .error DISP_E_TYPEMISMATCH⟩,
        fun _ _ => .error E_NOINTERFACE, fun _ => (E_NOTIMPL, none),
        fun _ => (S_OK, .VEmpty)⟩
    let info : func_info_t :=
      ⟨2, "f", 0, false, 8, 0, 0, 0, 0, 0, .VT_VOID, [], []⟩
    let dp : DISPPARAMS := ⟨[.VDispatch (some 1), .VDispatch (some 0)], []⟩
    function_apply env ienv info dp = (E_FAIL, none) ∧
    E_FAIL ≠ CTL_E_ILLEGALFUNCTIONCALL := by
  exact ⟨rfl, by decide⟩

/-- C6 (amended): with a valid target and an array-like second argument, the
`length` property is read and that many indexed properties are forwarded
positionally to the builtin bound to the target; an index whose name
resolution reports name-not-found becomes an empty argument; a failed
`length` NAME resolution, a negative length, or a non-convertible length
fails the call with the illegal-function-call error; but a failed read of the
length property's VALUE fails the call with that error propagated (turned
into the illegal-function-call error only when it is `E_UNEXPECTED`). -/
theorem function_apply_semantics (env : ApplyEnv) (ienv : InvokeEnv)
    (info : func_info_t) (dp : DISPPARAMS) (this_obj disp : Nat)
    (hdp : dp.rgvarg = [.VDispatch (some disp), .VDispatch (some this_obj)]) :
    (∀ e, (env.lookup (some disp)).get_dispid "length" = .error e →
      function_apply env ienv info dp = (CTL_E_ILLEGALFUNCTIONCALL, none)) ∧
    (∀ d hr v, d ≠ DISPID_UNKNOWN →
      (env.lookup (some disp)).get_dispid "length" = .ok d →
      (env.lookup (some disp)).prop_get d = (hr, v) →
      FAILED hr = true →
      function_apply env ienv info dp =
        (if hr = E_UNEXPECTED then CTL_E_ILLEGALFUNCTIONCALL else hr, none)) ∧
    (∀ d n, d ≠ DISPID_UNKNOWN →
      (env.lookup (some disp)).get_dispid "length" = .ok d →
      (env.lookup (some disp)).prop_get d = (S_OK, some (.VI4 n)) →
      n < 0 →
      function_apply env ienv info dp = (CTL_E_ILLEGALFUNCTIONCALL, none)) ∧
    (∀ d res e, d ≠ DISPID_UNKNOWN →
      (env.lookup (some disp)).get_dispid "length" = .ok d →
      (env.lookup (some disp)).prop_get d = (S_OK, some res) →
      res.vt ≠ .VT_I4 →
      change_type env.ct res .VT_I4 = .error e →
      function_apply env ienv info dp = (CTL_E_ILLEGALFUNCTIONCALL, none)) ∧
    (∀ d n g, d ≠ DISPID_UNKNOWN →
      (env.lookup (some disp)).get_dispid "length" = .ok d →
      (env.lookup (some disp)).prop_get d = (S_OK, some (.VI4 n)) →
      0 ≤ n →
      (∀ i, i < n.toNat → apply_pull_arg (env.lookup (some disp)) i = .ok (g i)) →
      function_apply env ienv info dp =
        (let r := invoke_builtin_function ienv info
          ⟨((List.range n.toNat).map g).reverse, []⟩
         (if r.1 = E_UNEXPECTED then CTL_E_ILLEGALFUNCTIONCALL else r.1, r.2))) ∧
    (∀ i, (env.lookup (some disp)).get_dispid (toString i) = .error DISP_E_UNKNOWNNAME →
      apply_pull_arg (env.lookup (some disp)) i = .ok .VEmpty) := by
  have hc : dp.cArgs = 2 := by rw [DISPPARAMS.cArgs, hdp]; rfl
  have htgt : dp.rgvarg.getD (dp.cArgs - 1) .VEmpty = .VDispatch (some this_obj) := by
    rw [hdp, hc]; rfl
  have harr : dp.rgvarg.getD (dp.cArgs - 2) .VEmpty = .VDispatch (some disp) := by
    rw [hdp, hc]; rfl
  refine ⟨?_, ?_, ?_, ?_, ?_, ?_⟩
  · intro e he
    unfold function_apply
    rw [if_neg (by omega), htgt, if_pos (by omega), harr]
    dsimp only
    rw [he]
    rfl
  · intro d hr v hdu hd hp hfl
    unfold function_apply
    rw [if_neg (by omega), htgt, if_pos (by omega), harr]
    dsimp only
    rw [hd]
    dsimp only
    rw [if_neg hdu, hp]
    dsimp only
    rw [if_pos hfl]
  · intro d n hdu hd hp hneg
    unfold function_apply
    rw [if_neg (by omega), htgt, if_pos (by omega), harr]
    dsimp only
    rw [hd]
    dsimp only
    rw [if_neg hdu, hp]
    dsimp only
    rw [if_neg (by simp [FAILED, S_OK])]
    dsimp only [Option.getD]
    rw [if_pos hneg]
    rfl
  · intro d res e hdu hd hp hvt hct
    unfold function_apply
    rw [if_neg (by omega), htgt, if_pos (by omega), harr]
    dsimp only
    rw [hd]
    dsimp only
    rw [if_neg hdu, hp]
    dsimp only
    rw [if_neg (by simp [FAILED, S_OK])]
    dsimp only [Option.getD]
    have hres : (match res with
        | .VI4 n => (.ok n : Except HRESULT Int)
        | _ =>
          match change_type env.ct res .VT_I4 with
          | .ok v => .ok v.i4D
          | .error e => .error e) = .error e := by
      cases res <;> first
        | (exfalso; exact hvt rfl)
        | (rw [hct])
    rw [hres]
    rfl
  · intro d n g hdu hd hp hnn hpull
    unfold function_apply
    rw [if_neg (by omega), htgt, if_pos (by omega), harr]
    dsimp only
    rw [hd]
    dsimp only
    rw [if_neg hdu, hp]
    dsimp only
    rw [if_neg (by simp [FAILED, S_OK])]
    dsimp only [Option.getD]
    rw [if_neg (by omega)]
    rw [apply_pull_ok _ g n.toNat hpull]
  · intro i hi
    unfold apply_pull_arg
    rw [hi]
    dsimp only
    rw [if_pos rfl]

/-- Witness for `function_apply_semantics`: a two-element array-like with a
hole at index 1, applied to a one-argument builtin. -/
theorem function_apply_semantics_witness :
    let al : ArrayLike :=
      ⟨fun s => if s = "length" then .ok 7
        else if s = "0" then .ok 10
        else .error DISP_E_UNKNOWNNAME,
       fun d => if d = 7 then (S_OK, some (.VI4 2))
        else if d = 10 then (S_OK, some (.VI4 42))
        else (E_FAIL, none)⟩
    let env : ApplyEnv := ⟨fun _ => al, ⟨none, fun _ _ => .error DISP_E_TYPEMISMATCH⟩⟩
    let ienv : InvokeEnv :=
      ⟨true, none, ⟨none, fun _ _ => .error DISP_E_TYPEMISMATCH⟩,
        fun _ _ => .error E_NOINTERFACE, fun _ => (E_NOTIMPL, none),
        fun args => (S_OK, .VI4 (args.getD 0 .VEmpty).i4D)⟩
    let info : func_info_t :=
      ⟨2, "f", 0, false, 8, 0, 0, 0, 2, 0, .VT_I4, [.VT_I4, .VT_EMPTY],
        [⟨none, .VEmpty⟩, ⟨none, .VEmpty⟩]⟩
    let dp : DISPPARAMS := ⟨[.VDispatch (some 1), .VDispatch (some 0)], []⟩
    function_apply env ienv info dp = (S_OK, some (.VI4 42)) ∧
    apply_pull_arg al 1 = .ok .VEmpty := by
  intro al env ienv info dp
  constructor
  · have h := (function_apply_semantics env ienv info dp 0 1 rfl).2.2.2.2.1 7 2
      (fun i => if i = 0 then .VI4 42 else .VEmpty)
      (by decide) rfl rfl (by decide)
      (by intro i hi
          have h2 : i < 2 := hi
          rcases i with _ | _ | i
          · rfl
          · rfl
          · exact absurd h2 (by omega))
    rw [h]
    rfl
  · exact (function_apply_semantics env ienv info dp 0 1 rfl).2.2.2.2.2 1 rfl

/-- `get_builtin_func` (dispex.c:1380), the search loop: binary search of the
id-sorted compiled member table, returning the table index.  Whenever the C
loop divides, `min + max` is nonnegative (`min` starts at 0 and never
decreases), so C's truncating division and the floor division used here
agree on every executed state. -/
def get_builtin_func_loop (funcs : List func_info_t) (id : DISPID)
    (lo hi : Int) : Except HRESULT Nat :=
  if h : lo ≤ hi then
    let n := (lo + hi) / 2
    let f := funcs.getD n.toNat default
    if f.id = id then .ok n.toNat
    else if f.id < id then get_builtin_func_loop funcs id (n + 1) hi
    else get_builtin_func_loop funcs id lo (n - 1)
  else .error DISP_E_MEMBERNOTFOUND
termination_by (hi + 1 - lo).toNat
decreasing_by
  all_goals omega

/-- `get_builtin_func` (dispex.c:1380): `min = 0`, `max = func_cnt - 1`. -/
def get_builtin_func (data : dispex_data_t) (id : DISPID) : Except HRESULT Nat :=
  get_builtin_func_loop data.funcs id 0 ((data.funcs.length : Int) - 1)

/-- `next_dynamic_id` (dispex.c:2775): skip dynamic slots flagged
`DYNPROP_DELETED | DYNPROP_HIDDEN | DYNPROP_PROTREF` from `idx` on; the first
surviving slot yields its DISPID with `S_OK`; exhaustion yields the start
sentinel with `S_FALSE`. -/
def next_dynamic_id (props : List dynamic_prop_t) (idx : Nat) : HRESULT × DISPID :=
  if h : idx < props.length then
    if (props.getD idx default).deleted || (props.getD idx default).hidden ||
        (props.getD idx default).protref then
      next_dynamic_id props (idx + 1)
    else (S_OK, DISPID_DYNPROP_0 + (idx : Int))
  else (S_FALSE, DISPID_STARTENUM)
termination_by props.length - idx

/-- The forward scan of `DispatchEx_GetNextDispID` (dispex.c:2825-2831) over
the compiled member table: the first entry at index `>= k` with
`func_disp_idx == -1` (a plain property — methods and hidden accessors are
skipped). -/
def builtin_scan (funcs : List func_info_t) (k : Nat) : Option DISPID :=
  if h : k < funcs.length then
    if (funcs.getD k default).func_disp_idx = -1 then some (funcs.getD k default).id
    else builtin_scan funcs (k + 1)
  else none
termination_by funcs.length - k

/-- The shared tail of `DispatchEx_GetNextDispID` (dispex.c:2836-2845): the
class `next_dispid` hook is consulted (its `S_FALSE` falls through), then the
dynamic store is scanned from index 0 when it is nonempty, and the very end
is `S_FALSE` with the start sentinel. -/
def gnd_tail (hook : Option (DISPID → HRESULT × Option DISPID))
    (props : List dynamic_prop_t) (id : DISPID) : HRESULT × Option DISPID :=
  match (match hook with
         | some f =>
           let r := f id
           if r.1 ≠ S_FALSE then some r else none
         | none => none) with
  | some r => r
  | none =>
    if props.length ≠ 0 then
      let r := next_dynamic_id props 0
      (r.1, some r.2)
    else (S_FALSE, some DISPID_STARTENUM)

/-- `DispatchEx_GetNextDispID` (dispex.c:2791) for a non-proxy object with
its info resolved: a dynamic id continues the dynamic scan after its own
index (an out-of-range index is member-not-found); a custom id goes straight
to the class hook; any other id locates a member-table position (the start
sentinel at 0, anything else one past its binary-search slot, a search
failure returned with `*pid` unwritten) and scans forward for the next plain
property, falling through to the hook-then-dynamic tail with the start
sentinel once the table is exhausted. -/
def DispatchEx_GetNextDispID (info : dispex_data_t)
    (hook : Option (DISPID → HRESULT × Option DISPID))
    (props : List dynamic_prop_t) (id : DISPID) : HRESULT × Option DISPID :=
  if is_dynamic_dispid id then
    let idx := dword_sub id DISPID_DYNPROP_0
    if props.length ≤ idx then (DISP_E_MEMBERNOTFOUND, none)
    else
      let r := next_dynamic_id props (idx + 1)
      (r.1, some r.2)
  else if is_custom_dispid id then gnd_tail hook props id
  else
    match (if id = DISPID_STARTENUM then Except.ok 0
           else
             match get_builtin_func info id with
             | .error hres => .error hres
             | .ok n => .ok (n + 1)) with
    | .error hres => (hres, none)
    | .ok start =>
      match builtin_scan info.funcs start with
      | some d => (S_OK, some d)
      | none => gnd_tail hook props DISPID_STARTENUM

/-- A canonical class `next_dispid` hook enumerating the fixed custom-member
identifier list `cs`: the start sentinel yields the first entry, a listed
identifier its successor, exhaustion `S_FALSE` with `*pid` unwritten. -/
def list_hook (cs : List DISPID) (id : DISPID) : HRESULT × Option DISPID :=
  let tail :=
    if id = DISPID_STARTENUM then cs
    else
      match cs.findIdx? (fun c => decide (c = id)) with
      | some i => cs.drop (i + 1)
      | none => []
  match tail with
  | [] => (S_FALSE, none)
  | c :: _ => (S_OK, some c)

/-- One enumeration step function: `GetNextDispID` on a fixed object state
(member table, canonical custom hook, dynamic store). -/
def gnd_step (info : dispex_data_t) (cs : List DISPID)
    (props : List dynamic_prop_t) (id : DISPID) : HRESULT × Option DISPID :=
  DispatchEx_GetNextDispID info (some (list_hook cs)) props id

/-- The identifier sequence an enumeration loop observes: iterate the step
from the given id while it reports `S_OK` (fuelled; a complete walk fits any
fuel beyond its length). -/
def enum_seq (step : DISPID → HRESULT × Option DISPID) : Nat → DISPID → List DISPID
  | 0, _ => []
  | fuel + 1, id =>
    match step id with
    | (hres, some d) => if hres = S_OK then d :: enum_seq step fuel d else []
    | (_, none) => []

/-- A `DYNPROP_DELETED | DYNPROP_HIDDEN | DYNPROP_PROTREF`-clear dynamic
slot — the ones `next_dynamic_id` may yield. -/
def dynprop_visible (p : dynamic_prop_t) : Bool :=
  !(p.deleted || p.hidden || p.protref)

/-- The ascending list of visible dynamic-store indices at `>= k`. -/
def live_idxs (props : List dynamic_prop_t) (k : Nat) : List Nat :=
  if h : k < props.length then
    if dynprop_visible (props.getD k default) then k :: live_idxs props (k + 1)
    else live_idxs props (k + 1)
  else []
termination_by props.length - k

/-- The identifiers of the plain-property members at table index `>= k`, in
table order. -/
def enum_funcs (funcs : List func_info_t) (k : Nat) : List DISPID :=
  if h : k < funcs.length then
    if (funcs.getD k default).func_disp_idx = -1 then
      (funcs.getD k default).id :: enum_funcs funcs (k + 1)
    else enum_funcs funcs (k + 1)
  else []
termination_by funcs.length - k

/-- `gnd_trace step cur L`: from `cur`, the step yields exactly the
identifiers of `L` with `S_OK` and then stops with `S_FALSE` at the start
sentinel. -/
def gnd_trace (step : DISPID → HRESULT × Option DISPID) :
    DISPID → List DISPID → Prop
  | cur, [] => step cur = (S_FALSE, some DISPID_STARTENUM)
  | cur, d :: rest => step cur = (S_OK, some d) ∧ gnd_trace step d rest

theorem enum_seq_of_trace (step : DISPID → HRESULT × Option DISPID) :
    ∀ (L : List DISPID) (fuel : Nat) (cur : DISPID), gnd_trace step cur L →
      L.length < fuel → enum_seq step fuel cur = L := by
  intro L
  induction L with
  | nil =>
    intro fuel cur h hf
    cases fuel with
    | zero => omega
    | succ f =>
      have h' : step cur = (S_FALSE, some DISPID_STARTENUM) := h
      simp [enum_seq, h', S_FALSE, S_OK]
  | cons d rest ih =>
    intro fuel cur h hf
    obtain ⟨h1, h2⟩ := h
    cases fuel with
    | zero => simp at hf
    | succ f =>
      simp only [enum_seq, h1, if_true]
      rw [ih f d h2 (by simp at hf; omega)]

theorem funcs_id_mono (funcs : List func_info_t)
    (hsort : List.Pairwise (fun a b => a.id < b.id) funcs)
    (i j : Nat) (hij : i < j) (hj : j < funcs.length) :
    (funcs.getD i default).id < (funcs.getD j default).id := by
  rw [List.getD_eq_getElem _ _ (lt_trans hij hj), List.getD_eq_getElem _ _ hj]
  exact List.pairwise_iff_getElem.mp hsort i j (lt_trans hij hj) hj hij

theorem funcs_id_lt_index (funcs : List func_info_t)
    (hsort : List.Pairwise (fun a b => a.id < b.id) funcs)
    (i j : Nat) (hi : i < funcs.length) (hj : j < funcs.length)
    (h : (funcs.getD i default).id < (funcs.getD j default).id) : i < j := by
  by_contra hc
  rcases Nat.eq_or_lt_of_le (Nat.not_lt.mp hc) with he | hl
  · rw [he] at h
    exact lt_irrefl _ h
  · exact absurd h (not_lt.mpr (le_of_lt (funcs_id_mono funcs hsort j i hl hi)))

theorem get_builtin_func_loop_ok (funcs : List func_info_t)
    (hsort : List.Pairwise (fun a b => a.id < b.id) funcs) (t : Nat)
    (ht : t < funcs.length) :
    ∀ (m : Nat) (lo hi : Int), (hi + 1 - lo).toNat ≤ m → 0 ≤ lo →
      hi < (funcs.length : Int) → lo ≤ (t : Int) → (t : Int) ≤ hi →
      get_builtin_func_loop funcs (funcs.getD t default).id lo hi = .ok t := by
  intro m
  induction m with
  | zero =>
    intro lo hi hm h0 hhi hlot hthi
    omega
  | succ m ih =>
    intro lo hi hm h0 hhi hlot hthi
    rw [get_builtin_func_loop, dif_pos (le_trans hlot hthi)]
    dsimp only
    have hn0 : 0 ≤ (lo + hi) / 2 := by omega
    have hnlen : ((lo + hi) / 2).toNat < funcs.length := by omega
    by_cases heq :
        (funcs.getD ((lo + hi) / 2).toNat default).id = (funcs.getD t default).id
    · rw [if_pos heq]
      have hnt : ((lo + hi) / 2).toNat = t := by
        rcases Nat.lt_trichotomy ((lo + hi) / 2).toNat t with h | h | h
        · exact absurd heq (ne_of_lt (funcs_id_mono funcs hsort _ t h ht))
        · exact h
        · exact absurd heq.symm (ne_of_lt (funcs_id_mono funcs hsort t _ h hnlen))
      rw [hnt]
    · rw [if_neg heq]
      by_cases hlt :
          (funcs.getD ((lo + hi) / 2).toNat default).id < (funcs.getD t default).id
      · rw [if_pos hlt]
        have hnt : ((lo + hi) / 2).toNat < t :=
          funcs_id_lt_index funcs hsort _ t hnlen ht hlt
        exact ih ((lo + hi) / 2 + 1) hi (by omega) (by omega) hhi (by omega) hthi
      · rw [if_neg hlt]
        have htn : t < ((lo + hi) / 2).toNat :=
          funcs_id_lt_index funcs hsort t _ ht hnlen
            (lt_of_le_of_ne (le_of_not_lt hlt) (fun hh => heq hh.symm))
        exact ih lo ((lo + hi) / 2 - 1) (by omega) h0 (by omega) hlot (by omega)

theorem get_builtin_func_ok (data : dispex_data_t)
    (hsort : List.Pairwise (fun a b => a.id < b.id) data.funcs)
    (t : Nat) (ht : t < data.funcs.length) :
    get_builtin_func data (data.funcs.getD t default).id = .ok t := by
  unfold get_builtin_func
  exact get_builtin_func_loop_ok data.funcs hsort t ht
    ((data.funcs.length : Int) - 1 + 1 - 0).toNat 0 ((data.funcs.length : Int) - 1)
    (by omega) (by omega) (by omega) (by omega) (by omega)

theorem live_idxs_cons (props : List dynamic_prop_t) :
    ∀ (m k i : Nat) (rest : List Nat), props.length - k ≤ m →
      live_idxs props k = i :: rest →
      k ≤ i ∧ i < props.length ∧ dynprop_visible (props.getD i default) = true ∧
        rest = live_idxs props (i + 1) := by
  intro m
  induction m with
  | zero =>
    intro k i rest hm h
    rw [live_idxs, dif_neg (by omega)] at h
    exact absurd h (by simp)
  | succ m ih =>
    intro k i rest hm h
    by_cases hk : k < props.length
    · rw [live_idxs, dif_pos hk] at h
      by_cases hv : dynprop_visible (props.getD k default) = true
      · rw [if_pos hv] at h
        injection h with h1 h2
        subst h1
        exact ⟨le_refl _, hk, hv, h2.symm⟩
      · rw [if_neg hv] at h
        have h3 := ih (k + 1) i rest (by omega) h
        exact ⟨by omega, h3.2⟩
    · rw [live_idxs, dif_neg hk] at h
      exact absurd h (by simp)

theorem next_dynamic_id_eq (props : List dynamic_prop_t) :
    ∀ (m k : Nat), props.length - k ≤ m →
      next_dynamic_id props k =
        (match live_idxs props k with
         | [] => (S_FALSE, DISPID_STARTENUM)
         | i :: _ => (S_OK, DISPID_DYNPROP_0 + (i : Int))) := by
  intro m
  induction m with
  | zero =>
    intro k hm
    rw [next_dynamic_id, dif_neg (by omega), live_idxs, dif_neg (by omega)]
  | succ m ih =>
    intro k hm
    by_cases hk : k < props.length
    · rw [next_dynamic_id, dif_pos hk, live_idxs, dif_pos hk]
      by_cases hfl : ((props.getD k default).deleted || (props.getD k default).hidden ||
          (props.getD k default).protref) = true
      · rw [if_pos hfl, if_neg (by
          simp only [dynprop_visible, hfl, Bool.not_true]
          exact Bool.false_ne_true)]
        exact ih (k + 1) (by omega)
      · have hfl' : ((props.getD k default).deleted || (props.getD k default).hidden ||
            (props.getD k default).protref) = false := by
          cases hh : ((props.getD k default).deleted || (props.getD k default).hidden ||
            (props.getD k default).protref)
          · rfl
          · exact absurd hh hfl
        rw [if_neg hfl, if_pos (by simp only [dynprop_visible, hfl', Bool.not_false])]
    · rw [next_dynamic_id, dif_neg hk, live_idxs, dif_neg hk]

theorem enum_funcs_cons (funcs : List func_info_t) :
    ∀ (m k : Nat) (d : DISPID) (rest : List DISPID), funcs.length - k ≤ m →
      enum_funcs funcs k = d :: rest →
      ∃ n, k ≤ n ∧ n < funcs.length ∧ (funcs.getD n default).id = d ∧
        (funcs.getD n default).func_disp_idx = -1 ∧ rest = enum_funcs funcs (n + 1) := by
  intro m
  induction m with
  | zero =>
    intro k d rest hm h
    rw [enum_funcs, dif_neg (by omega)] at h
    exact absurd h (by simp)
  | succ m ih =>
    intro k d rest hm h
    by_cases hk : k < funcs.length
    · rw [enum_funcs, dif_pos hk] at h
      by_cases he : (funcs.getD k default).func_disp_idx = -1
      · rw [if_pos he] at h
        injection h with h1 h2
        exact ⟨k, le_refl _, hk, h1, he, h2.symm⟩
      · rw [if_neg he] at h
        obtain ⟨n, hn1, hn2⟩ := ih (k + 1) d rest (by omega) h
        exact ⟨n, by omega, hn2⟩
    · rw [enum_funcs, dif_neg hk] at h
      exact absurd h (by simp)

theorem builtin_scan_eq (funcs : List func_info_t) :
    ∀ (m k : Nat), funcs.length - k ≤ m →
      builtin_scan funcs k = (enum_funcs funcs k).head? := by
  intro m
  induction m with
  | zero =>
    intro k hm
    rw [builtin_scan, dif_neg (by omega), enum_funcs, dif_neg (by omega)]
    rfl
  | succ m ih =>
    intro k hm
    by_cases hk : k < funcs.length
    · rw [builtin_scan, dif_pos hk, enum_funcs, dif_pos hk]
      by_cases he : (funcs.getD k default).func_disp_idx = -1
      · rw [if_pos he, if_pos he]
        rfl
      · rw [if_neg he, if_neg he]
        exact ih (k + 1) (by omega)
    · rw [builtin_scan, dif_neg hk, enum_funcs, dif_neg hk]
      rfl

theorem enum_funcs_eq_filter (funcs : List func_info_t) :
    ∀ (m k : Nat), funcs.length - k ≤ m →
      enum_funcs funcs k =
        ((funcs.drop k).filter (fun f => decide (f.func_disp_idx = -1))).map
          (fun f => f.id) := by
  intro m
  induction m with
  | zero =>
    intro k hm
    rw [enum_funcs, dif_neg (by omega), List.drop_eq_nil_of_le (by omega)]
    rfl
  | succ m ih =>
    intro k hm
    by_cases hk : k < funcs.length
    · have hg : funcs.getD k default = funcs[k] := List.getD_eq_getElem _ _ hk
      rw [enum_funcs, dif_pos hk, List.drop_eq_getElem_cons hk, List.filter_cons]
      by_cases he : (funcs.getD k default).func_disp_idx = -1
      · rw [if_pos he]
        rw [hg] at he
        rw [if_pos (by simp [he]), List.map_cons, ih (k + 1) (by omega), hg]
      · rw [if_neg he]
        rw [hg] at he
        rw [if_neg (by simpa using he)]
        exact ih (k + 1) (by omega)
    · rw [enum_funcs, dif_neg hk, List.drop_eq_nil_of_le (by omega)]
      rfl

theorem live_idxs_eq_filter (props : List dynamic_prop_t) :
    ∀ (m k : Nat), props.length - k ≤ m →
      live_idxs props k =
        ((List.range props.length).drop k).filter
          (fun i => dynprop_visible (props.getD i default)) := by
  intro m
  induction m with
  | zero =>
    intro k hm
    rw [live_idxs, dif_neg (by omega), List.drop_eq_nil_of_le (by simp; omega)]
    rfl
  | succ m ih =>
    intro k hm
    by_cases hk : k < props.length
    · have hk' : k < (List.range props.length).length := by simpa using hk
      rw [live_idxs, dif_pos hk, List.drop_eq_getElem_cons hk', List.filter_cons,
        List.getElem_range]
      by_cases hv : dynprop_visible (props.getD k default) = true
      · rw [if_pos hv, if_pos (by simpa using hv), ih (k + 1) (by omega)]
      · rw [if_neg hv, if_neg (by simpa using hv), ih (k + 1) (by omega)]
    · rw [live_idxs, dif_neg hk, List.drop_eq_nil_of_le (by simp; omega)]
      rfl

theorem builtin_id_flags (d : Int) (h0 : 0 ≤ d) (h1 : d < DISPID_DYNPROP_0) :
    is_dynamic_dispid d = false ∧ is_custom_dispid d = false ∧
      d ≠ DISPID_STARTENUM := by
  have h1' : d < (1342177280 : Int) := h1
  refine ⟨?_, ?_, ?_⟩
  · simp only [is_dynamic_dispid, decide_eq_false_iff_not, not_and, not_le]
    intro h
    have h' : (1342177280 : Int) ≤ d := h
    show (1610612735 : Int) < d
    omega
  · simp only [is_custom_dispid, decide_eq_false_iff_not, not_and, not_le]
    intro h
    have h' : (1610612736 : Int) ≤ d := h
    show (1879048191 : Int) < d
    omega
  · intro h
    rw [h] at h0
    exact absurd h0 (by decide)

theorem custom_id_flags (c : Int) (h : is_custom_dispid c = true) :
    is_dynamic_dispid c = false ∧ c ≠ DISPID_STARTENUM := by
  simp only [is_custom_dispid, decide_eq_true_eq] at h
  have hlo : (1610612736 : Int) ≤ c := h.1
  constructor
  · simp only [is_dynamic_dispid, decide_eq_false_iff_not, not_and, not_le]
    intro h2
    show (1610612735 : Int) < c
    omega
  · intro h2
    rw [h2] at hlo
    exact absurd hlo (by decide)

theorem dyn_id_is_dynamic (i : Nat) (hi : i ≤ 0x0fffffff) :
    is_dynamic_dispid (DISPID_DYNPROP_0 + (i : Int)) = true := by
  simp only [is_dynamic_dispid, DISPID_DYNPROP_0, DISPID_DYNPROP_MAX, decide_eq_true_eq]
  show (1342177280 : Int) ≤ 1342177280 + (i : Int) ∧
    1342177280 + (i : Int) ≤ 1610612735
  omega

theorem gnd_dyn_trace (info : dispex_data_t) (cs : List DISPID)
    (props : List dynamic_prop_t) (hplen : props.length ≤ 0x0fffffff) :
    ∀ (m i : Nat), props.length - i ≤ m → i < props.length →
      gnd_trace (gnd_step info cs props) (DISPID_DYNPROP_0 + (i : Int))
        ((live_idxs props (i + 1)).map (fun j : Nat => DISPID_DYNPROP_0 + (j : Int))) := by
  intro m
  induction m with
  | zero =>
    intro i h1 h2
    omega
  | succ m ih =>
    intro i hm hi
    have hstep : gnd_step info cs props (DISPID_DYNPROP_0 + (i : Int)) =
        (match live_idxs props (i + 1) with
         | [] => (S_FALSE, some DISPID_STARTENUM)
         | j :: _ => (S_OK, some (DISPID_DYNPROP_0 + (j : Int)))) := by
      unfold gnd_step DispatchEx_GetNextDispID
      rw [if_pos (dyn_id_is_dynamic i (by omega))]
      dsimp only
      rw [dyn_id_idx i (by omega), if_neg (by omega : ¬(props.length ≤ i)),
        next_dynamic_id_eq props props.length (i + 1) (by omega)]
      cases live_idxs props (i + 1) <;> rfl
    rcases hl : live_idxs props (i + 1) with _ | ⟨j, rest⟩
    · rw [hl] at hstep
      simp only [List.map_nil]
      exact hstep
    · rw [hl] at hstep
      have hj := live_idxs_cons props props.length (i + 1) j rest (by omega) hl
      rw [List.map_cons]
      refine ⟨hstep, ?_⟩
      rw [hj.2.2.2]
      exact ih j (by omega) hj.2.1

theorem gnd_tail_eq (cs : List DISPID) (props : List dynamic_prop_t) (id : DISPID) :
    gnd_tail (some (list_hook cs)) props id =
      (if (list_hook cs id).1 = S_FALSE then
        (match live_idxs props 0 with
         | [] => (S_FALSE, some DISPID_STARTENUM)
         | j :: _ => (S_OK, some (DISPID_DYNPROP_0 + (j : Int))))
       else list_hook cs id) := by
  unfold gnd_tail
  dsimp only
  by_cases hS : (list_hook cs id).1 = S_FALSE
  · rw [if_neg (not_not_intro hS), if_pos hS]
    dsimp only
    by_cases hp : props.length ≠ 0
    · rw [if_pos hp, next_dynamic_id_eq props props.length 0 (by omega)]
      cases live_idxs props 0 <;> rfl
    · rw [if_neg hp]
      have hnil : live_idxs props 0 = [] := by
        rw [live_idxs, dif_neg (by omega)]
      rw [hnil]
  · rw [if_pos hS, if_neg hS]

theorem gnd_dyn_entry (info : dispex_data_t) (cs : List DISPID)
    (props : List dynamic_prop_t) (hplen : props.length ≤ 0x0fffffff) (cur : DISPID)
    (hstep : gnd_step info cs props cur =
      (match live_idxs props 0 with
       | [] => (S_FALSE, some DISPID_STARTENUM)
       | j :: _ => (S_OK, some (DISPID_DYNPROP_0 + (j : Int))))) :
    gnd_trace (gnd_step info cs props) cur
      ((live_idxs props 0).map (fun j : Nat => DISPID_DYNPROP_0 + (j : Int))) := by
  rcases hl : live_idxs props 0 with _ | ⟨j, rest⟩
  · rw [hl] at hstep
    simp only [List.map_nil]
    exact hstep
  · rw [hl] at hstep
    have hj := live_idxs_cons props props.length 0 j rest (by omega) hl
    rw [List.map_cons]
    refine ⟨hstep, ?_⟩
    rw [hj.2.2.2]
    exact gnd_dyn_trace info cs props hplen props.length j (by omega) hj.2.1

theorem list_hook_findIdx (cs pre : List DISPID) (c : DISPID) (suffix : List DISPID)
    (hnd : cs.Nodup) (hdec : cs = pre ++ c :: suffix) :
    List.findIdx? (fun x => decide (x = c)) cs = some pre.length := by
  subst hdec
  have hnotin : c ∉ pre := by
    rw [List.nodup_append] at hnd
    intro hin
    exact hnd.2.2 hin (by simp)
  rw [List.findIdx?_append]
  have h1 : List.findIdx? (fun x => decide (x = c)) pre = none := by
    rw [List.findIdx?_eq_none_iff]
    intro x hx
    simp only [decide_eq_false_iff_not]
    intro he
    exact hnotin (he ▸ hx)
  rw [h1]
  simp

theorem list_hook_drop (pre suffix : List DISPID) (c : DISPID) :
    (pre ++ c :: suffix).drop (pre.length + 1) = suffix := by
  have h : pre ++ c :: suffix = (pre ++ [c]) ++ suffix := by simp
  rw [h]
  have hlen : (pre ++ [c]).length = pre.length + 1 := by simp
  rw [← hlen, List.drop_left]

theorem gnd_custom_trace (info : dispex_data_t) (cs : List DISPID)
    (props : List dynamic_prop_t) (hplen : props.length ≤ 0x0fffffff)
    (hcs : ∀ c ∈ cs, is_custom_dispid c = true) (hnd : cs.Nodup) :
    ∀ (suffix pre : List DISPID) (c : DISPID), cs = pre ++ c :: suffix →
      gnd_trace (gnd_step info cs props) c
        (suffix ++ (live_idxs props 0).map (fun j : Nat => DISPID_DYNPROP_0 + (j : Int))) := by
  intro suffix
  induction suffix with
  | nil =>
    intro pre c hdec
    have hflags := custom_id_flags c (hcs c (by rw [hdec]; simp))
    have hhook : list_hook cs c = (S_FALSE, none) := by
      unfold list_hook
      rw [if_neg hflags.2, list_hook_findIdx cs pre c [] hnd hdec]
      dsimp only
      rw [hdec, list_hook_drop pre [] c]
    have hstep : gnd_step info cs props c =
        (match live_idxs props 0 with
         | [] => (S_FALSE, some DISPID_STARTENUM)
         | j :: _ => (S_OK, some (DISPID_DYNPROP_0 + (j : Int)))) := by
      unfold gnd_step DispatchEx_GetNextDispID
      rw [if_neg (by simp [hflags.1]), if_pos (by simp [hcs c (by rw [hdec]; simp)]),
        gnd_tail_eq, hhook, if_pos rfl]
    simp only [List.nil_append]
    exact gnd_dyn_entry info cs props hplen c hstep
  | cons c2 rest ih =>
    intro pre c hdec
    have hflags := custom_id_flags c (hcs c (by rw [hdec]; simp))
    have hhook : list_hook cs c = (S_OK, some c2) := by
      unfold list_hook
      rw [if_neg hflags.2, list_hook_findIdx cs pre c (c2 :: rest) hnd hdec]
      dsimp only
      rw [hdec, list_hook_drop pre (c2 :: rest) c]
    have hstep : gnd_step info cs props c = (S_OK, some c2) := by
      unfold gnd_step DispatchEx_GetNextDispID
      rw [if_neg (by simp [hflags.1]), if_pos (by simp [hcs c (by rw [hdec]; simp)]),
        gnd_tail_eq, hhook, if_neg (by simp [S_OK, S_FALSE])]
    refine ⟨hstep, ?_⟩
    exact ih (pre ++ [c]) c2 (by rw [hdec]; simp)

theorem gnd_post_builtin (info : dispex_data_t) (cs : List DISPID)
    (props : List dynamic_prop_t) (hplen : props.length ≤ 0x0fffffff)
    (hcs : ∀ c ∈ cs, is_custom_dispid c = true) (hnd : cs.Nodup) (cur : DISPID)
    (hstep : gnd_step info cs props cur =
      gnd_tail (some (list_hook cs)) props DISPID_STARTENUM) :
    gnd_trace (gnd_step info cs props) cur
      (cs ++ (live_idxs props 0).map (fun j : Nat => DISPID_DYNPROP_0 + (j : Int))) := by
  rw [gnd_tail_eq] at hstep
  rcases cs with _ | ⟨c, rest⟩
  · have hlh : list_hook [] DISPID_STARTENUM = (S_FALSE, none) := by
      unfold list_hook
      rw [if_pos rfl]
    have hcond : ((S_FALSE, (none : Option DISPID)).1 = S_FALSE) := rfl
    rw [hlh, if_pos hcond] at hstep
    simp only [List.nil_append]
    exact gnd_dyn_entry info [] props hplen cur hstep
  · have hlh : list_hook (c :: rest) DISPID_STARTENUM = (S_OK, some c) := by
      unfold list_hook
      rw [if_pos rfl]
    have hcond : ¬((S_OK, some c).1 = S_FALSE) := by simp [S_OK, S_FALSE]
    rw [hlh, if_neg hcond] at hstep
    refine ⟨hstep, ?_⟩
    exact gnd_custom_trace info (c :: rest) props hplen hcs hnd rest [] c rfl

theorem gnd_builtin_trace (info : dispex_data_t) (cs : List DISPID)
    (props : List dynamic_prop_t) (hplen : props.length ≤ 0x0fffffff)
    (hcs : ∀ c ∈ cs, is_custom_dispid c = true) (hnd : cs.Nodup)
    (hsort : List.Pairwise (fun a b => a.id < b.id) info.funcs)
    (hids : ∀ f ∈ info.funcs, 0 ≤ f.id ∧ f.id < DISPID_DYNPROP_0) :
    ∀ (m n : Nat), info.funcs.length - n ≤ m → n < info.funcs.length →
      gnd_trace (gnd_step info cs props) ((info.funcs.getD n default).id)
        (enum_funcs info.funcs (n + 1) ++ cs ++
          (live_idxs props 0).map (fun j : Nat => DISPID_DYNPROP_0 + (j : Int))) := by
  intro m
  induction m with
  | zero =>
    intro n h1 h2
    omega
  | succ m ih =>
    intro n hm hn
    have hmem : info.funcs.getD n default ∈ info.funcs := by
      rw [List.getD_eq_getElem _ _ hn]
      exact List.getElem_mem _
    have hflags := builtin_id_flags _ (hids _ hmem).1 (hids _ hmem).2
    have hstep : gnd_step info cs props (info.funcs.getD n default).id =
        (match (enum_funcs info.funcs (n + 1)).head? with
         | some d => (S_OK, some d)
         | none => gnd_tail (some (list_hook cs)) props DISPID_STARTENUM) := by
      unfold gnd_step DispatchEx_GetNextDispID
      rw [if_neg (by rw [hflags.1]; exact Bool.false_ne_true),
        if_neg (by rw [hflags.2.1]; exact Bool.false_ne_true),
        if_neg hflags.2.2, get_builtin_func_ok info hsort n hn]
      dsimp only
      rw [builtin_scan_eq info.funcs info.funcs.length (n + 1) (by omega)]
    rcases he : enum_funcs info.funcs (n + 1) with _ | ⟨d, rest⟩
    · rw [he] at hstep
      simp only [List.head?_nil] at hstep
      simp only [List.nil_append]
      exact gnd_post_builtin info cs props hplen hcs hnd _ hstep
    · rw [he] at hstep
      simp only [List.head?_cons] at hstep
      obtain ⟨n2, hn2a, hn2b, hn2c, _, hn2e⟩ :=
        enum_funcs_cons info.funcs info.funcs.length (n + 1) d rest (by omega) he
      simp only [List.cons_append]
      refine ⟨hstep, ?_⟩
      rw [← hn2c, hn2e]
      exact ih n2 (by omega) hn2b

set_option maxRecDepth 2000 in
/-- Counterexample to C8 as stated: a class declares two plain properties
with identifiers 2 then 1 (that is its declaration order); the preprocessed
table is qsorted by identifier, so enumeration from the start sentinel yields
1 before 2 — ascending identifier order, not declaration order. -/
theorem getnextdispid_declaration_order_counterexample :
    let fdb : FUNCDESC := ⟨2, DISPATCH_PROPERTYGET, 0, .VT_I4, 0, [], 3⟩
    let fda : FUNCDESC := ⟨1, DISPATCH_PROPERTYGET, 0, .VT_I4, 0, [], 4⟩
    let reflect : Reflection := fun _ => [(fdb, some "b"), (fda, some "a")]
    let desc : dispex_static_data_t := ⟨"X", [0]⟩
    let data : dispex_data_t := preprocess_dispex_data reflect desc .COMPAT_MODE_IE9
    ((reflect 0).map (fun m => m.1.memid) = [2, 1]) ∧
    enum_seq (DispatchEx_GetNextDispID data none []) 4 DISPID_STARTENUM = [1, 2] := by
  intro fdb fda reflect desc data
  have hacc : desc.iface_tids.foldl
      (fun acc tid => process_interface acc.1 acc.2 tid (reflect tid) []) ([], 0) =
      ([⟨2, "b", 0, false, 0, 0, 3, -1, 0, 0, .VT_I4, [], []⟩,
        ⟨1, "a", 0, false, 0, 0, 4, -1, 0, 0, .VT_I4, [], []⟩], 0) := by
    decide
  have hfun2 : data.funcs = [⟨1, "a", 0, false, 0, 0, 4, -1, 0, 0, .VT_I4, [], []⟩,
      ⟨2, "b", 0, false, 0, 0, 3, -1, 0, 0, .VT_I4, [], []⟩] := by
    show (preprocess_dispex_data reflect desc .COMPAT_MODE_IE9).funcs = _
    unfold preprocess_dispex_data
    rw [hacc]
    simp [List.mergeSort]
  have s0 : DispatchEx_GetNextDispID data none [] DISPID_STARTENUM = (S_OK, some 1) := by
    unfold DispatchEx_GetNextDispID
    rw [if_neg (by decide : ¬(is_dynamic_dispid DISPID_STARTENUM = true)),
      if_neg (by decide : ¬(is_custom_dispid DISPID_STARTENUM = true)),
      if_pos rfl]
    dsimp only
    rw [hfun2]
    simp [builtin_scan]
  have s1 : DispatchEx_GetNextDispID data none [] 1 = (S_OK, some 2) := by
    unfold DispatchEx_GetNextDispID
    rw [if_neg (by decide : ¬(is_dynamic_dispid 1 = true)),
      if_neg (by decide : ¬(is_custom_dispid 1 = true)),
      if_neg (by decide : ¬((1 : DISPID) = DISPID_STARTENUM))]
    unfold get_builtin_func
    rw [hfun2]
    simp [get_builtin_func_loop, builtin_scan]
  have s2 : DispatchEx_GetNextDispID data none [] 2 =
      (S_FALSE, some DISPID_STARTENUM) := by
    unfold DispatchEx_GetNextDispID
    rw [if_neg (by decide : ¬(is_dynamic_dispid 2 = true)),
      if_neg (by decide : ¬(is_custom_dispid 2 = true)),
      if_neg (by decide : ¬((2 : DISPID) = DISPID_STARTENUM))]
    unfold get_builtin_func
    rw [hfun2]
    simp [get_builtin_func_loop, builtin_scan, gnd_tail]
  refine ⟨rfl, ?_⟩
  have htr : gnd_trace (DispatchEx_GetNextDispID data none []) DISPID_STARTENUM
      [1, 2] := ⟨s0, s1, s2⟩
  exact enum_seq_of_trace _ [1, 2] 4 _ htr (by norm_num)

/-- C8 (amended): from the start sentinel, `GetNextDispID` yields first the
plain-property builtin members in member-TABLE order — which, the table being
sorted by identifier, is ascending identifier order, not declaration order —
then the custom members supplied by the class hook, then the dynamic
properties in store order; builtins with `func_disp_idx != -1` (methods and
hidden accessors) are skipped, as are dynamic slots flagged
`DELETED | HIDDEN | PROTREF`; after the last member the walk ends with
`S_FALSE` at the start sentinel. -/
theorem getnextdispid_enumeration (info : dispex_data_t) (cs : List DISPID)
    (props : List dynamic_prop_t) (fuel : Nat)
    (hsort : List.Pairwise (fun a b => a.id < b.id) info.funcs)
    (hids : ∀ f ∈ info.funcs, 0 ≤ f.id ∧ f.id < DISPID_DYNPROP_0)
    (hcs : ∀ c ∈ cs, is_custom_dispid c = true) (hnd : cs.Nodup)
    (hplen : props.length ≤ 0x0fffffff)
    (hfuel : (enum_funcs info.funcs 0 ++ cs ++
      (live_idxs props 0).map (fun j : Nat => DISPID_DYNPROP_0 + (j : Int))).length
        < fuel) :
    enum_seq (gnd_step info cs props) fuel DISPID_STARTENUM =
      enum_funcs info.funcs 0 ++ cs ++
        (live_idxs props 0).map (fun j : Nat => DISPID_DYNPROP_0 + (j : Int)) ∧
    enum_funcs info.funcs 0 =
      (info.funcs.filter (fun f => decide (f.func_disp_idx = -1))).map
        (fun f => f.id) ∧
    List.Pairwise (fun a b : DISPID => a < b) (enum_funcs info.funcs 0) ∧
    live_idxs props 0 =
      (List.range props.length).filter
        (fun i => dynprop_visible (props.getD i default)) := by
  refine ⟨?_, ?_, ?_, ?_⟩
  · have hstep : gnd_step info cs props DISPID_STARTENUM =
        (match (enum_funcs info.funcs 0).head? with
         | some d => (S_OK, some d)
         | none => gnd_tail (some (list_hook cs)) props DISPID_STARTENUM) := by
      unfold gnd_step DispatchEx_GetNextDispID
      rw [if_neg (by decide : ¬(is_dynamic_dispid DISPID_STARTENUM = true)),
        if_neg (by decide : ¬(is_custom_dispid DISPID_STARTENUM = true)),
        if_pos rfl]
      dsimp only
      rw [builtin_scan_eq info.funcs info.funcs.length 0 (by omega)]
    have htrace : gnd_trace (gnd_step info cs props) DISPID_STARTENUM
        (enum_funcs info.funcs 0 ++ cs ++
          (live_idxs props 0).map (fun j : Nat => DISPID_DYNPROP_0 + (j : Int))) := by
      rcases he : enum_funcs info.funcs 0 with _ | ⟨d, rest⟩
      · rw [he] at hstep
        simp only [List.head?_nil] at hstep
        simp only [List.nil_append]
        exact gnd_post_builtin info cs props hplen hcs hnd _ hstep
      · rw [he] at hstep
        simp only [List.head?_cons] at hstep
        obtain ⟨n2, hn2a, hn2b, hn2c, _, hn2e⟩ :=
          enum_funcs_cons info.funcs info.funcs.length 0 d rest (by omega) he
        simp only [List.cons_append]
        refine ⟨hstep, ?_⟩
        rw [← hn2c, hn2e]
        exact gnd_builtin_trace info cs props hplen hcs hnd hsort hids
          info.funcs.length n2 (by omega) hn2b
    exact enum_seq_of_trace _ _ fuel _ htrace hfuel
  · have h := enum_funcs_eq_filter info.funcs info.funcs.length 0 (by omega)
    rw [List.drop_zero] at h
    exact h
  · rw [enum_funcs_eq_filter info.funcs info.funcs.length 0 (by omega),
      List.drop_zero]
    exact List.pairwise_map.mpr (List.Pairwise.filter _ hsort)
  · have h := live_idxs_eq_filter props props.length 0 (by omega)
    rw [List.drop_zero] at h
    exact h

set_option maxRecDepth 2000 in
/-- Witness for `getnextdispid_enumeration`: a table holding a plain property
(id 1), a method (id 3, skipped), and another plain property (id 5); one
custom member; a dynamic store [visible, hidden, visible]. -/
theorem getnextdispid_enumeration_witness :
    let fa : func_info_t := ⟨1, "a", 0, false, 0, 0, 7, -1, 0, 0, .VT_I4, [], []⟩
    let fm : func_info_t := ⟨3, "m", 0, false, 9, 0, 0, 0, 0, 0, .VT_VOID, [], []⟩
    let fb : func_info_t := ⟨5, "b", 0, false, 0, 0, 8, -1, 0, 0, .VT_I4, [], []⟩
    let info : dispex_data_t := ⟨.COMPAT_MODE_IE9, [fa, fm, fb], [fa, fb, fm], 1⟩
    let props : List dynamic_prop_t :=
      [⟨"x", .VI4 1, false, false, false⟩, ⟨"y", .VI4 2, false, true, false⟩,
       ⟨"z", .VI4 3, false, false, false⟩]
    enum_seq (gnd_step info [1610612740] props) 6 DISPID_STARTENUM =
      [1, 5, 1610612740, DISPID_DYNPROP_0, DISPID_DYNPROP_0 + 2] := by
  intro fa fm fb info props
  have h := (getnextdispid_enumeration info [1610612740] props 6
    (by decide) (by decide) (by decide) (by decide) (by decide)
    (by simp [fa, fm, fb, info, props, enum_funcs, live_idxs, dynprop_visible])).1
  rw [h]
  simp [fa, fm, fb, info, props, enum_funcs, live_idxs, dynprop_visible]

end Dispex
